import Mathlib

/-
Verification of the `workspaces` CLI (src/workspaces/workspace.py).

The program is a single-file command line tool with four commands (`setup`,
`gitcheck`, `link`, `export`) whose behaviour is a sequence of filesystem and
subprocess operations.  We give a shallow embedding:

* the filesystem is a flat finite map from paths (lists of components,
  relative to the current working directory) to entries (regular file with
  content, directory, symbolic link, hard link);
* `Path.exists()` / `is_symlink()` checks are modelled on this map;
  `exists()` is modelled as presence of an entry at the path (the resolution
  of symbolic-link chains by `stat` is not modelled, except for `is_dir()`,
  where the tool relies on it for symlinked repositories);
* subprocess invocations (`git clone`, `git status/log/fetch`, `grep`) are
  modelled by environment parameters describing the outcome of each call;
* `sys.exit(n)` and uncaught Python exceptions are modelled by an `Outcome`
  value carried in each command's result, together with the list of lines
  printed so far.

Definitions follow the Python source function by function; message strings
are reproduced exactly (apostrophes and braces written with \x27/\x7b/\x7d
escapes).
-/

set_option autoImplicit false

namespace Workspaces

/-- A filesystem path, as a list of components relative to the process's
working directory.  `".."` components that would escape the working
directory are kept as literal components, and the user's home directory
(`Path.home()` / `expanduser`) is represented by the literal component `"~"`. -/
abbrev FPath := List String

/-! Structural string primitives.  The corresponding core functions
(`String.splitOn`, `String.trim`, `String.startsWith`, `String.lt`) are
implemented with iterator loops that the kernel cannot evaluate on
literals, so the embedding uses these structurally recursive equivalents
over `String.data`. -/

/-- Worker for `strSplitOn`: fuel-bounded scan (fuel is always at least the
length of the remaining text, so the fuel-exhausted case is unreachable). -/
def splitOnAuxL (sep : List Char) : Nat → List Char → List Char → List (List Char)
  | 0, s, acc => [acc.reverse ++ s]
  | fuel + 1, s, acc =>
    match s with
    | [] => [acc.reverse]
    | c :: rest =>
      if sep.isPrefixOf (c :: rest) then
        acc.reverse :: splitOnAuxL sep fuel ((c :: rest).drop sep.length) []
      else splitOnAuxL sep fuel rest (c :: acc)

/-- Python's `str.split(sep)` / Lean's `String.splitOn` (non-empty
separator): split at each non-overlapping occurrence, left to right. -/
def strSplitOn (s sep : String) : List String :=
  if sep = "" then [s]
  else (splitOnAuxL sep.data (s.data.length + 1) s.data []).map String.mk

/-- Python's `str.strip()` / `String.trim`: drop leading and trailing
whitespace. -/
def strTrim (s : String) : String :=
  String.mk (((s.data.dropWhile Char.isWhitespace).reverse.dropWhile
    Char.isWhitespace).reverse)

/-- Python's `str.startswith(pre)` / `String.startsWith`. -/
def strStartsWith (s pre : String) : Bool := pre.data.isPrefixOf s.data

/-- Lexicographic `≤` on character lists (by code point). -/
def lexLeChars : List Char → List Char → Bool
  | [], _ => true
  | _ :: _, [] => false
  | a :: as, b :: bs =>
    if a.val < b.val then true
    else if b.val < a.val then false
    else lexLeChars as bs

/-- String order used for `sorted(...)`. -/
def strLeB (a b : String) : Bool := lexLeChars a.data b.data

/-- `pathlib.Path(s)`: split on `/`, dropping empty components and `"."`
(Python's `Path` keeps `".."`). -/
def pathComponents (s : String) : List String :=
  (strSplitOn s "/").filter (fun c => c ≠ "" && c ≠ ".")

/-- `Path(s).expanduser().resolve()`, modelled lexically: components are
normalised, `".."` cancels a preceding component, and a leading `"~"` is kept
as the home-directory marker.  (Resolution of symbolic links by `resolve()`
is not modelled.) -/
def resolvePath (s : String) : FPath :=
  (pathComponents s).foldl
    (fun acc c =>
      if c = ".." then
        if acc.isEmpty || acc.getLast? == some ".." then acc ++ [".."]
        else acc.dropLast
      else acc ++ [c]) []

/-- `str(Path(...))`: components joined with `/`; the empty path prints `"."`. -/
def pathStr (p : FPath) : String :=
  if p.isEmpty then "." else String.intercalate "/" p

/-- `Path(...).name`: the final component (empty for the empty path). -/
def pathName (p : FPath) : String := (p.getLast?).getD ""

/-- A filesystem entry: regular file (with its text content), directory,
symbolic link (with its link target, stored resolved against the link's
directory), or hard link (modelled by the path it was created from). -/
inductive Entry where
  | file (content : String)
  | dir
  | symlink (target : FPath)
  | hardlink (target : FPath)
deriving DecidableEq

/-- The filesystem: an association list from paths to entries, first entry
for a path wins. -/
structure FS where
  entries : List (FPath × Entry)
deriving DecidableEq

namespace FS

def lookup (fs : FS) (p : FPath) : Option Entry :=
  (fs.entries.find? (fun q => q.1 == p)).map (·.2)

def set (fs : FS) (p : FPath) (e : Entry) : FS :=
  ⟨(p, e) :: fs.entries.filter (fun q => !(q.1 == p))⟩

/-- `Path.unlink()`. -/
def erase (fs : FS) (p : FPath) : FS :=
  ⟨fs.entries.filter (fun q => !(q.1 == p))⟩

/-- `shutil.rmtree(p)`: remove `p` and everything below it. -/
def removeTree (fs : FS) (p : FPath) : FS :=
  ⟨fs.entries.filter (fun q => !(p.isPrefixOf q.1))⟩

/-- `Path.exists()`: an entry is present at the path.  (Following of
symbolic-link chains by `stat` is not modelled; a symlink entry counts as
existing.) -/
def pexists (fs : FS) (p : FPath) : Bool := (fs.lookup p).isSome

/-- `Path.is_symlink()`. -/
def isSymlinkB (fs : FS) (p : FPath) : Bool :=
  match fs.lookup p with
  | some (.symlink _) => true
  | _ => false

/-- `Path.is_dir()` with fuel-bounded following of symbolic links
(`is_dir` resolves symlinks; the tool relies on this for symlinked repos). -/
def isDir (fs : FS) : Nat → FPath → Bool
  | 0, _ => false
  | fuel + 1, p =>
    match fs.lookup p with
    | some .dir => true
    | some (.symlink t) => fs.isDir fuel t
    | _ => false

/-- Maximum number of symbolic links followed (cf. the OS's `ELOOP` bound). -/
def linkFuel : Nat := 32

def isDirF (fs : FS) (p : FPath) : Bool := fs.isDir linkFuel p

/-- `Path.mkdir(exist_ok=True)`: no-op on an existing directory, creates the
directory when nothing is there, raises `FileExistsError` otherwise. -/
def mkdirExistOk (fs : FS) (p : FPath) : Except String FS :=
  match fs.lookup p with
  | some .dir => .ok fs
  | none => .ok (fs.set p .dir)
  | some _ => .error "FileExistsError"

/-- `Path.mkdir()` (no `exist_ok`): raises `FileExistsError` if anything is
at the path. -/
def mkdirStrict (fs : FS) (p : FPath) : Except String FS :=
  match fs.lookup p with
  | none => .ok (fs.set p .dir)
  | some _ => .error "FileExistsError"

/-- `Path.write_text(c)` / `open(p, "w")`: raises on a directory, otherwise
(re)creates the regular file.  (Write-through of symbolic links is not
modelled: a symlink entry at the path is replaced.) -/
def writeText (fs : FS) (p : FPath) (c : String) : Except String FS :=
  match fs.lookup p with
  | some .dir => .error "IsADirectoryError"
  | _ => .ok (fs.set p (.file c))

/-- `Path.symlink_to(t)`: raises `FileExistsError` if anything is at the
link path. -/
def symlinkTo (fs : FS) (p : FPath) (t : FPath) : Except String FS :=
  match fs.lookup p with
  | some _ => .error "FileExistsError"
  | none => .ok (fs.set p (.symlink t))

/-- Insert a string into a `≤`-sorted list of strings. -/
def insertSorted (s : String) : List String → List String
  | [] => [s]
  | t :: ts => if strLeB s t then s :: t :: ts else t :: insertSorted s ts

/-- Sort a list of strings (Python's `sorted` on paths compares the
component tuples; for single extra components this is string order). -/
def sortStrings (l : List String) : List String := l.foldr insertSorted []

/-- `sorted(p.iterdir())`: the names of the immediate children of `p` that
have an entry, sorted. -/
def childNames (fs : FS) (p : FPath) : List String :=
  sortStrings
    ((fs.entries.filterMap (fun q =>
        if q.1.length = p.length + 1 && p.isPrefixOf q.1 then q.1.getLast? else none)).dedup)

/-- `shutil.copytree(src, dest)`: every entry at or below `src` is
replicated below `dest` (symbolic links are copied as entries; `copytree`'s
dereferencing of symlinks is not modelled), and `dest` itself is created. -/
def copyTree (fs : FS) (src dest : FPath) : FS :=
  ⟨((fs.entries.filter (fun q => src.isPrefixOf q.1)).map
      (fun q => (dest ++ q.1.drop src.length, q.2)))
    ++ [(dest, Entry.dir)] ++ fs.entries⟩

/-- `shutil.copy2(src, dest)`: copies a regular file's content (metadata,
symlink dereferencing and copy-into-directory are not modelled). -/
def copy2 (fs : FS) (src dest : FPath) : Except String FS :=
  match fs.lookup src with
  | some (.file c) =>
    match fs.lookup dest with
    | some .dir => .error "IsADirectoryError"
    | _ => .ok (fs.set dest (.file c))
  | some .dir => .error "IsADirectoryError"
  | _ => .error "FileNotFoundError"

end FS

/-! ### Basic lemmas about the filesystem model -/

theorem find?_filter_ne (l : List (FPath × Entry)) (p q : FPath) (hq : q ≠ p) :
    (l.filter (fun r => !(r.1 == p))).find? (fun r => r.1 == q)
      = l.find? (fun r => r.1 == q) := by
  induction l with
  | nil => rfl
  | cons a l ih =>
    by_cases hap : a.1 = p
    · have h1 : (a.1 == p) = true := by simp [hap]
      have h2 : (a.1 == q) = false := by simp [hap, Ne.symm hq]
      simp [List.filter_cons, h1, List.find?_cons, h2, ih]
    · have h1 : (a.1 == p) = false := by simp [hap]
      by_cases haq : a.1 = q
      · have h2 : (a.1 == q) = true := by simp [haq]
        simp [List.filter_cons, h1, List.find?_cons, h2]
      · have h2 : (a.1 == q) = false := by simp [haq]
        simp [List.filter_cons, h1, List.find?_cons, h2, ih]

theorem FS.lookup_set (fs : FS) (p : FPath) (e : Entry) (q : FPath) :
    (fs.set p e).lookup q = if q = p then some e else fs.lookup q := by
  by_cases h : q = p
  · subst h
    simp [FS.set, FS.lookup, List.find?_cons]
  · have h1 : (p == q) = false := by simp [Ne.symm h]
    simp [FS.set, FS.lookup, List.find?_cons, h1, h, find?_filter_ne fs.entries p q h]

theorem FS.lookup_set_self (fs : FS) (p : FPath) (e : Entry) :
    (fs.set p e).lookup p = some e := by
  simp [FS.lookup_set]

theorem FS.lookup_set_ne (fs : FS) (p : FPath) (e : Entry) (q : FPath) (h : q ≠ p) :
    (fs.set p e).lookup q = fs.lookup q := by
  simp [FS.lookup_set, h]

theorem FS.lookup_erase (fs : FS) (p : FPath) (q : FPath) :
    (fs.erase p).lookup q = if q = p then none else fs.lookup q := by
  by_cases h : q = p
  · subst h
    simp only [FS.erase, FS.lookup, if_pos rfl]
    rw [List.find?_eq_none.mpr]
    · rfl
    · intro a ha
      have := List.of_mem_filter ha
      simp at this
      simp [this]
  · simp [FS.erase, FS.lookup, h, find?_filter_ne fs.entries p q h]

/-- Creating an entry where none was preserves every present entry. -/
theorem FS.lookup_mono_set (fs : FS) (p : FPath) (e : Entry)
    (hnone : fs.lookup p = none) (q : FPath) (e' : Entry)
    (hq : fs.lookup q = some e') : (fs.set p e).lookup q = some e' := by
  have h : q ≠ p := by
    intro h; subst h; rw [hq] at hnone; exact Option.noConfusion hnone
  rw [FS.lookup_set_ne fs p e q h, hq]

/-! ### ANSI colors (class `Colors`) -/

namespace Colors

def CYAN : String := "\x1b[96m"

def YELLOW : String := "\x1b[93m"

def GREEN : String := "\x1b[92m"

def RED : String := "\x1b[91m"

def BLUE : String := "\x1b[94m"

def BOLD : String := "\x1b[1m"

def RESET : String := "\x1b[0m"

end Colors

/-! ### Data model: manifest (`workspace.toml`) -/

/-- One repository table of the manifest.  Each field is `none` when the key
is absent from the TOML table (`repo.get(...)` returns `None`). -/
structure Repo where
  path : Option String := none
  remote : Option String := none
  source : Option String := none
deriving DecidableEq

/-- The parsed manifest (`tomllib.load`).  `repos = none` models a file with
no top-level `repos` key. -/
structure Config where
  name : Option String := none
  description : Option String := none
  repos : Option (List Repo) := none
deriving DecidableEq

/-- Outcome of `subprocess.run(["git", "clone", remote, ...], check=True)`:
`none` for success, `some stderr` for `CalledProcessError`. -/
abbrev CloneEnv := String → Option String

/-- Running state of a command: filesystem plus lines printed so far. -/
structure St where
  fs : FS
  out : List String
deriving DecidableEq

/-- How a command run ended: normal return, `sys.exit(code)`, or an uncaught
Python exception. -/
inductive Outcome where
  | normal
  | exited (code : Nat)
  | raised (err : String)
deriving DecidableEq

/-- Final state of a command run. -/
structure CmdResult where
  fs : FS
  out : List String
  outcome : Outcome
deriving DecidableEq

/-! ### SETUP command -/

/-- `json.dump(STARTER_SETTINGS, f, indent=2)` followed by `f.write("\n")`. -/
def starterSettingsJson : String :=
  "\x7b\n  \"permissions\": \x7b\n    \"allow\": [\n      \"Read\",\n      \"Edit\",\n      \"Write\",\n      \"WebSearch\"\n    ]\n  \x7d\n\x7d\n"

/-- `Path(repo_path).name if repo_path else "unknown"`. -/
def repoDisplayName (rp : String) : String :=
  if rp = "" then "unknown" else pathName (pathComponents rp)

/-- `CLAUDE_MD_TEMPLATE.format(...)` as built in `cmd_setup`. -/
def claudeMdContent (cfg : Config) (wsArg : String) : String :=
  let name := cfg.name.getD wsArg
  let description := cfg.description.getD "[Description of this workspace]"
  let reposLines := (cfg.repos.getD []).map (fun r =>
    "- `" ++ repoDisplayName (r.path.getD "") ++ "` - [description]")
  let reposList :=
    if reposLines.isEmpty then "- (no repositories yet)"
    else String.intercalate "\n" reposLines
  "# " ++ name ++ "\n\n" ++ description ++
    "\n\n## Workspace Structure\n\nThis is a **workspace** - a folder grouping related repos for coordinated work.\n\n- `repos/` - Git clones and symlinks (gitignored, not tracked here)\n- `plans/` - Design documents and implementation plans\n- `progress.md` - AI session logs\n- `journal.md` - Human work log\n\n**File locations:** All plans and progress go in THIS folder (workspace root), never inside `repos/` subdirectories.\n\n## Repositories\n\n" ++
    reposList ++ "\n"

/-- Resolve a relative symlink target string against the link's directory
(for `agents_core.symlink_to("../../../.claude/agents")`). -/
def resolveRel (base : FPath) (target : String) : FPath :=
  (pathComponents target).foldl
    (fun acc c => if c = ".." then acc.dropLast else acc ++ [c]) base

/-- The `agents/core` / `skills/core` symlink step of
`setup_claude_symlinks`: create the link when it is absent and the parent
source directory exists. -/
def coreSymlinkStep (link : FPath) (target : String) (parentSrc : FPath)
    (msg : String) (fs : FS) : Except String (FS × List String) :=
  if fs.pexists link = false && fs.pexists parentSrc then
    match fs.symlinkTo link (resolveRel link.dropLast target) with
    | .error e => .error e
    | .ok fs' => .ok (fs', [msg])
  else .ok (fs, [])

/-- The `settings.local.json` step of `setup_claude_symlinks`: write the
starter settings when the file is absent. -/
def settingsStep (settingsFile : FPath) (fs : FS) : Except String (FS × List String) :=
  if fs.pexists settingsFile = false then
    match fs.writeText settingsFile starterSettingsJson with
    | .error e => .error e
    | .ok fs' =>
      .ok (fs', ["  ✓ Created settings.local.json with starter permissions"])
  else .ok (fs, [])

/-- `setup_claude_symlinks(workspace_path)` (paths written with their
components merged: `workspace_claude / "agents" / "core"` is
`wsPath ++ [".claude", "agents", "core"]`). -/
def setupClaudeSymlinks (wsPath : FPath) (st : St) : Except CmdResult St :=
  if st.fs.pexists [".claude"] = false then
    .ok ⟨st.fs, st.out ++ ["Warning: Parent .claude directory not found, skipping symlink setup"]⟩
  else
    match st.fs.mkdirExistOk (wsPath ++ [".claude"]) with
    | .error e => .error ⟨st.fs, st.out, .raised e⟩
    | .ok fs1 =>
      match fs1.mkdirExistOk (wsPath ++ [".claude", "agents"]) with
      | .error e => .error ⟨fs1, st.out, .raised e⟩
      | .ok fs2 =>
        match fs2.mkdirExistOk (wsPath ++ [".claude", "skills"]) with
        | .error e => .error ⟨fs2, st.out, .raised e⟩
        | .ok fs3 =>
          match coreSymlinkStep (wsPath ++ [".claude", "agents", "core"])
              "../../../.claude/agents" [".claude", "agents"]
              "  ✓ Linked agents/core -> ../../../.claude/agents" fs3 with
          | .error e => .error ⟨fs3, st.out, .raised e⟩
          | .ok (fs4, out4) =>
            match coreSymlinkStep (wsPath ++ [".claude", "skills", "core"])
                "../../../.claude/skills" [".claude", "skills"]
                "  ✓ Linked skills/core -> ../../../.claude/skills" fs4 with
            | .error e => .error ⟨fs4, st.out ++ out4, .raised e⟩
            | .ok (fs5, out5) =>
              match settingsStep (wsPath ++ [".claude", "settings.local.json"]) fs5 with
              | .error e => .error ⟨fs5, st.out ++ out4 ++ out5, .raised e⟩
              | .ok (fs6, out6) => .ok ⟨fs6, st.out ++ out4 ++ out5 ++ out6⟩

/-- The per-entry repository loop of `cmd_setup` (lines 158-188), including
the final "ready" message.  A repository table without a `path` key raises
`KeyError`; `repo.get("source")`/`repo.get("remote")` are tested for Python
truthiness (absent or empty string both fail the test). -/
def setupRepos (clone : CloneEnv) (wsArg : String) (wsPath : FPath) :
    St → List Repo → CmdResult
  | st, [] => ⟨st.fs, st.out ++ ["\nWorkspace \x27" ++ wsArg ++ "\x27 is ready!"], .normal⟩
  | st, r :: rest =>
    match r.path with
    | none => ⟨st.fs, st.out, .raised "KeyError: \x27path\x27"⟩
    | some s =>
      let pcs := pathComponents s
      let tgt := wsPath ++ pcs
      if (st.fs.lookup tgt).isSome then
        setupRepos clone wsArg wsPath
          ⟨st.fs, st.out ++ ["✓ " ++ pathStr pcs ++ " already exists"]⟩ rest
      else
        let src := r.source.getD ""
        if src ≠ "" then
          let sp := resolvePath src
          if st.fs.pexists sp = false then
            setupRepos clone wsArg wsPath
              ⟨st.fs, st.out ++ ["✗ " ++ pathStr pcs ++ ": source " ++ src ++ " doesn\x27t exist"]⟩
              rest
          else
            match st.fs.symlinkTo tgt sp with
            | .error e => ⟨st.fs, st.out, .raised e⟩
            | .ok fs' =>
              setupRepos clone wsArg wsPath
                ⟨fs', st.out ++ ["✓ Linked " ++ pathStr pcs ++ " -> " ++ src]⟩ rest
        else
          let rem := r.remote.getD ""
          if rem ≠ "" then
            match clone rem with
            | none =>
              setupRepos clone wsArg wsPath
                ⟨st.fs.set tgt .dir, st.out ++ ["✓ Cloned " ++ rem ++ " -> " ++ pathStr pcs]⟩ rest
            | some err =>
              setupRepos clone wsArg wsPath
                ⟨st.fs, st.out ++ ["✗ Failed to clone " ++ rem ++ ": " ++ err]⟩ rest
          else
            setupRepos clone wsArg wsPath
              ⟨st.fs, st.out ++ ["⊘ " ++ pathStr pcs ++ " has no remote or source, skipping"]⟩ rest

/-- The `plans/` creation step of `cmd_setup`. -/
def plansStep (plansDir : FPath) (fs : FS) : Except String (FS × List String) :=
  if fs.pexists plansDir = false then
    match fs.mkdirStrict plansDir with
    | .error e => .error e
    | .ok fs2 => .ok (fs2, ["✓ Created plans/"])
  else .ok (fs, [])

/-- The `CLAUDE.md` template step of `cmd_setup`. -/
def claudeMdStep (cfg : Config) (wsArg : String) (claudeMd : FPath) (fs : FS) :
    Except String (FS × List String) :=
  if fs.pexists claudeMd = false then
    match fs.writeText claudeMd (claudeMdContent cfg wsArg) with
    | .error e => .error e
    | .ok fs3 => .ok (fs3, ["✓ Created CLAUDE.md from template"])
  else .ok (fs, [])

/-- `cmd_setup` before the repository loop: precondition checks, `repos/`,
`plans/`, `CLAUDE.md`, and `.claude` symlink scaffolding (lines 103-157).
The parsed manifest is passed as `cfg` (TOML parsing is not modelled). -/
def setupPre (cfg : Config) (wsArg : String) (fs : FS) : Except CmdResult St :=
  if fs.pexists (pathComponents wsArg) = false then
    .error ⟨fs, ["Error: Workspace \x27" ++ wsArg ++ "\x27 not found"], .exited 1⟩
  else if fs.pexists (pathComponents wsArg ++ ["workspace.toml"]) = false then
    .error ⟨fs, ["Error: workspace.toml not found in " ++ wsArg], .exited 1⟩
  else
    match cfg.repos with
    | none => .error ⟨fs, ["Error: No \x27repos\x27 section found in workspace.toml"], .exited 1⟩
    | some _ =>
      match fs.mkdirExistOk (pathComponents wsArg ++ ["repos"]) with
      | .error e => .error ⟨fs, [], .raised e⟩
      | .ok fs1 =>
        match plansStep (pathComponents wsArg ++ ["plans"]) fs1 with
        | .error e => .error ⟨fs1, [], .raised e⟩
        | .ok (fs2, out2) =>
          match claudeMdStep cfg wsArg (pathComponents wsArg ++ ["CLAUDE.md"]) fs2 with
          | .error e => .error ⟨fs2, out2, .raised e⟩
          | .ok (fs3, out3) =>
            match setupClaudeSymlinks (pathComponents wsArg)
                ⟨fs3, out2 ++ out3 ++ ["\nSetting up .claude symlinks..."]⟩ with
            | .error r => .error r
            | .ok st4 => .ok ⟨st4.fs, st4.out ++ ["\nSetting up repositories..."]⟩

/-- `cmd_setup(args)`. -/
def cmdSetup (clone : CloneEnv) (cfg : Config) (wsArg : String) (fs : FS) : CmdResult :=
  match setupPre cfg wsArg fs with
  | .error r => r
  | .ok st => setupRepos clone wsArg (pathComponents wsArg) st (cfg.repos.getD [])

/-! ### CHECK (gitcheck) command -/

/-- Outcome of one `subprocess.run(["git", *args], cwd=repo_path, ...)`:
either the process completed (with its captured stdout; a nonzero git exit
status still counts as completed, since `check=True` is not passed), or the
invocation itself raised (e.g. `git` not found). -/
inductive GitRes where
  | completed (stdout : String)
  | raised (err : String)
deriving DecidableEq

/-- Environment describing every git invocation's outcome, keyed by the
repository path and the argument list. -/
abbrev GitEnv := FPath → List String → GitRes

/-- `run_git(repo_path, *args)`. -/
def runGit (env : GitEnv) (repoPath : FPath) (args : List String) : Bool × String :=
  match env repoPath args with
  | .completed s => (true, strTrim s)
  | .raised e => (false, e)

def statusArgs : List String := ["status", "--porcelain"]

def fetchArgs : List String := ["fetch", "--quiet"]

def logAheadArgs : List String := ["log", "@\x7bu\x7d..", "--oneline"]

def logBehindArgs : List String := ["log", "..@\x7bu\x7d", "--oneline"]

/-- The per-repository status snapshot built by `check_repo`. -/
structure RepoStatus where
  is_git_repo : Bool := false
  uncommitted : String := ""
  outgoing : String := ""
  incoming : String := ""
deriving DecidableEq

/-- `check_repo(repo_path, fetch)`. -/
def checkRepo (fs : FS) (env : GitEnv) (repoPath : FPath) (fetch : Bool) : RepoStatus :=
  if fs.pexists (repoPath ++ [".git"]) = false then {}
  else
    let r0 : RepoStatus := { is_git_repo := true }
    let s1 := runGit env repoPath statusArgs
    let r1 := if s1.1 then { r0 with uncommitted := s1.2 } else r0
    -- `if fetch: run_git(repo_path, "fetch", "--quiet")` — result discarded
    let r1 := if fetch then (let _ := runGit env repoPath fetchArgs; r1) else r1
    let s2 := runGit env repoPath logAheadArgs
    let r2 := if s2.1 then { r1 with outgoing := s2.2 } else r1
    let s3 := runGit env repoPath logBehindArgs
    if s3.1 then { r2 with incoming := s3.2 } else r2

/-- The value a `check_repo` field ends up holding for a given invocation
outcome: stripped stdout on completion, the empty string when the
invocation raised (the field keeps its `""` initialisation). -/
def gitOut : GitRes → String
  | .completed s => strTrim s
  | .raised _ => ""

/-- One printed detail section of the report (header plus indented,
colorized lines of the field). -/
def sectionLines (color : String) (header : String) (content : String) : List String :=
  header :: (strSplitOn content "\n").map (fun l => color ++ "      " ++ l ++ Colors.RESET)

/-- The body of `check_workspace`'s loop for one repo whose status is known:
clean/dirty increments and the lines printed for it. -/
def repoLines (repoPath : FPath) (st : RepoStatus) : Nat × Nat × List String :=
  let hasIssues := !(st.uncommitted == "") || !(st.outgoing == "") || !(st.incoming == "")
  let hdr :=
    if hasIssues then [Colors.CYAN ++ pathStr repoPath ++ Colors.RESET] else []
  let l1 :=
    if st.uncommitted ≠ "" then
      sectionLines Colors.YELLOW "   Uncommitted changes:" st.uncommitted
    else []
  let l2 :=
    if st.outgoing ≠ "" then
      sectionLines Colors.GREEN "   Outgoing commits (not pushed):" st.outgoing
    else []
  let l3 :=
    if st.incoming ≠ "" then
      sectionLines Colors.RED "   Incoming commits (not pulled):" st.incoming
    else []
  if hasIssues then (0, 1, hdr ++ l1 ++ l2 ++ l3) else (1, 0, hdr ++ l1 ++ l2 ++ l3)

/-- One full loop iteration of `check_workspace` for one repository path:
`(clean increment, dirty increment, printed lines)`. -/
def repoReport (fs : FS) (env : GitEnv) (fetch : Bool) (repoPath : FPath) :
    Nat × Nat × List String :=
  repoLines repoPath (checkRepo fs env repoPath fetch)

/-- The contribution of one child of `repos/` to the workspace report:
nothing for non-directories and non-git directories, `repoReport` otherwise. -/
def repoContribution (fs : FS) (env : GitEnv) (fetch : Bool) (reposPath : FPath)
    (n : String) : Nat × Nat × List String :=
  let rp := reposPath ++ [n]
  if fs.isDirF rp = false then (0, 0, [])
  else if (checkRepo fs env rp fetch).is_git_repo = false then (0, 0, [])
  else repoReport fs env fetch rp

/-- `check_workspace`'s `for repo in sorted(repos_path.iterdir())` loop. -/
def reposLoop (fs : FS) (env : GitEnv) (fetch : Bool) (reposPath : FPath) :
    List String → Nat × Nat × List String
  | [] => (0, 0, [])
  | n :: rest =>
    let head := repoContribution fs env fetch reposPath n
    let tail := reposLoop fs env fetch reposPath rest
    (head.1 + tail.1, head.2.1 + tail.2.1, head.2.2 ++ tail.2.2)

/-- `check_workspace(workspace_path, fetch)`: `(clean, dirty, printed lines)`. -/
def checkWorkspace (fs : FS) (env : GitEnv) (fetch : Bool) (wsPath : FPath) :
    Nat × Nat × List String :=
  let reposPath := wsPath ++ ["repos"]
  if fs.pexists reposPath = false then (0, 0, [])
  else
    let hdr := Colors.BLUE ++ "=== Workspace: " ++ pathName wsPath ++ " ===" ++ Colors.RESET
    let r := reposLoop fs env fetch reposPath (fs.childNames reposPath)
    (r.1, r.2.1, hdr :: r.2.2 ++ [""])

/-- `find_workspaces(base_path)` at the current directory. -/
def findWorkspaces (fs : FS) : List FPath :=
  ((fs.childNames []).filter (fun n =>
      fs.isDirF [n] && !(strStartsWith n ".") && fs.isDirF [n, "repos"])).map
    (fun n => [n])

/-- The final tally line of `cmd_check`. -/
def summaryLine (clean dirty : Nat) : String :=
  Colors.GREEN ++ "Clean repos:" ++ Colors.RESET ++ " " ++ toString clean ++ " | " ++
    Colors.RED ++ "Repos with changes:" ++ Colors.RESET ++ " " ++ toString dirty

/-- `cmd_check(args)`: returns the printed lines and the process exit code
(0 for a normal return, the code of `sys.exit` otherwise). -/
def cmdCheck (fs : FS) (env : GitEnv) (wopt : Option String) (fetch : Bool) :
    List String × Nat :=
  let inWorkspace := fs.isDirF ["repos"]
  let out0 := [Colors.BLUE ++ "Checking workspaces for git changes..." ++ Colors.RESET]
    ++ (if fetch then [Colors.YELLOW ++ "(fetching from remotes)" ++ Colors.RESET] else [])
    ++ [""]
  let w := wopt.getD ""
  if w ≠ "" then
    let wsPath := pathComponents w
    if fs.pexists wsPath = false then
      (out0 ++ [Colors.RED ++ "Workspace not found: " ++ w ++ Colors.RESET], 1)
    else if fs.isDirF (wsPath ++ ["repos"]) = false then
      (out0 ++ [Colors.RED ++ "Not a workspace (no repos/ folder): " ++ w ++ Colors.RESET], 1)
    else
      let r := checkWorkspace fs env fetch wsPath
      (out0 ++ r.2.2 ++ [summaryLine r.1 r.2.1], 0)
  else if inWorkspace then
    let r := checkWorkspace fs env fetch []
    (out0 ++ r.2.2 ++ [summaryLine r.1 r.2.1], 0)
  else
    match findWorkspaces fs with
    | [] => (out0 ++ ["No workspaces found"], 0)
    | ws =>
      let r := ws.foldl
        (fun (acc : Nat × Nat × List String) p =>
          let r := checkWorkspace fs env fetch p
          (acc.1 + r.1, acc.2.1 + r.2.1, acc.2.2 ++ r.2.2))
        (0, 0, [])
      (out0 ++ r.2.2 ++ [summaryLine r.1 r.2.1], 0)

/-! ### LINK command -/

/-- `vault = Path("../Notes/notes").expanduser()`. -/
def vaultPath : FPath := pathComponents "../Notes/notes"

/-- `aibrief_dir = Path.home() / "Dropbox/Apps/work-journal-reviewer"`. -/
def aibriefDir : FPath := ["~", "Dropbox", "Apps", "work-journal-reviewer"]

/-- Frontmatter extraction in `cmd_link`'s loop: the first line starting
with `"workspace: "`, split on that separator, second piece, stripped.
`none` when no line matches. -/
def extractWorkspace (content : String) : Option String :=
  ((strSplitOn content "\n").find? (fun l => strStartsWith l "workspace: ")).map
    (fun l => strTrim ((strSplitOn l "workspace: ").getD 1 ""))

/-- Whether `grep -rl "^workspace: " vault` lists the file at `p`. -/
def noteMatches (fs : FS) (p : FPath) : Bool :=
  vaultPath.isPrefixOf p &&
    (match fs.lookup p with
     | some (.file c) => (strSplitOn c "\n").any (fun l => strStartsWith l "workspace: ")
     | _ => false)

/-- The note paths produced by the `grep` subprocess (order is the entry
order of the filesystem; `grep -r`'s traversal order is unspecified). -/
def grepNotes (fs : FS) : List FPath :=
  ((fs.entries.map (·.1)).dedup).filter (noteMatches fs)

/-- `open(note)` followed by reading lines: the file's content (callers only
reach this for paths listed by the `grep` scan, i.e. regular files). -/
def readFile (fs : FS) (p : FPath) : String :=
  match fs.lookup p with
  | some (.file c) => c
  | _ => ""

/-- The hard-link half of a `cmd_link` loop iteration: if the Dropbox
aibrief folder is a directory, remove any existing `{workspace}.md` there
and hard-link it to the note; failures (`hlOk = false`, or the note path
vanished) are swallowed (`except OSError: pass`). -/
def aibriefStep (hlOk : Bool) (w : String) (note : FPath) (st1 : St) : St :=
  if st1.fs.isDirF aibriefDir then
    let aibriefLink := aibriefDir ++ [w ++ ".md"]
    let fs2 := if st1.fs.pexists aibriefLink then st1.fs.erase aibriefLink else st1.fs
    if hlOk && (fs2.lookup note).isSome then
      ⟨fs2.set aibriefLink (.hardlink note),
        st1.out ++ ["  + aibrief: " ++ w ++ ".md (hard linked)"]⟩
    else ⟨fs2, st1.out⟩
  else st1

/-- One iteration of `cmd_link`'s `for note in notes` loop.  `wsDir` is
`workspaces_dir` (`Path(__file__).parent.resolve()`); `hlOk` tells whether
`hardlink_to` succeeds (hard links may fail across filesystems; the
`OSError` is swallowed). -/
def linkNote (wsDir : FPath) (hlOk : Bool) (st : St) (note : FPath) : St :=
  match extractWorkspace (readFile st.fs note) with
  | none => st
  | some w =>
    if w = "" then st
    else
      let workspaceDir := wsDir ++ pathComponents w
      let linkPath := workspaceDir ++ ["journal.md"]
      let st1 : St :=
        if st.fs.isDirF workspaceDir = false then
          ⟨st.fs, st.out ++ ["- " ++ w ++ " (no workspace folder)"]⟩
        else if st.fs.isSymlinkB linkPath then
          ⟨st.fs, st.out ++ ["✓ " ++ w ++ " (already linked)"]⟩
        else if st.fs.pexists linkPath then
          ⟨st.fs, st.out ++ ["✗ " ++ w ++ " (journal.md exists but is not a symlink)"]⟩
        else
          ⟨st.fs.set linkPath (.symlink note), st.out ++ ["✓ " ++ w ++ " → " ++ pathStr note]⟩
      aibriefStep hlOk w note st1

/-- `cmd_link(args)`. -/
def cmdLink (fs : FS) (wsDir : FPath) (hlOk : Bool) : CmdResult :=
  if fs.pexists vaultPath = false then
    ⟨fs, [Colors.RED ++ "Vault not found: " ++ pathStr vaultPath ++ Colors.RESET], .exited 1⟩
  else
    match (if fs.pexists ["~", "Dropbox", "Apps"] then fs.mkdirExistOk aibriefDir
           else .ok fs : Except String FS) with
    | .error e => ⟨fs, [], .raised e⟩
    | .ok fs0 =>
      let notes := grepNotes fs0
      let final := notes.foldl (linkNote wsDir hlOk) ⟨fs0, []⟩
      ⟨final.fs, final.out, .normal⟩

/-! ### EXPORT command -/

/-- The `for filename in ["CLAUDE.md", "README.md"]` body of `cmd_export`. -/
def exportRootDoc (rootDir exportPath : FPath) (filename : String) (st : St) :
    Except String St :=
  let src := rootDir ++ [filename]
  if st.fs.pexists src then
    match st.fs.copy2 src (exportPath ++ [filename]) with
    | .error e => .error e
    | .ok fs' => .ok ⟨fs', st.out ++ ["✓ Copied " ++ filename]⟩
  else .ok ⟨st.fs, st.out ++ ["⊘ No root " ++ filename ++ " found"]⟩

/-- The root `.claude/agents` / `.claude/skills` copy step of `cmd_export`. -/
def exportRootSub (rootClaude destClaude : FPath) (sub : String) (fs : FS) :
    Except String (FS × String) :=
  let srcDir := rootClaude ++ [sub]
  let destDir := destClaude ++ [sub]
  if fs.pexists srcDir && fs.isDirF srcDir then
    let fs1 := if fs.pexists destDir then fs.removeTree destDir else fs
    let fs2 := fs1.copyTree srcDir destDir
    .ok (fs2, "✓ Copied .claude/" ++ sub ++ "/ (" ++
      toString (fs2.childNames destDir).length ++ " items)")
  else
    match fs.mkdirExistOk destDir with
    | .error e => .error e
    | .ok fs1 => .ok (fs1, "✓ Created .claude/" ++ sub ++ "/ (empty)")

/-- The `for item in src_dir.iterdir()` loop of the workspace `.claude`
copy step (symlinks such as `core` are skipped). -/
def exportClaudeItems (srcDir destDir : FPath) :
    FS → List String → Nat → Except String (FS × Nat)
  | fs, [], k => .ok (fs, k)
  | fs, n :: rest, k =>
    let item := srcDir ++ [n]
    if fs.isSymlinkB item then exportClaudeItems srcDir destDir fs rest k
    else
      let destItem := destDir ++ [n]
      if fs.isDirF item then
        let fs1 := if fs.pexists destItem then fs.removeTree destItem else fs
        exportClaudeItems srcDir destDir (fs1.copyTree item destItem) rest (k + 1)
      else
        match fs.copy2 item destItem with
        | .error e => .error e
        | .ok fs1 => exportClaudeItems srcDir destDir fs1 rest (k + 1)

/-- The workspace `.claude/agents` / `.claude/skills` copy step. -/
def exportWsSub (wsClaude destClaude : FPath) (wsArg sub : String) (fs : FS) :
    Except String (FS × List String) :=
  let srcDir := wsClaude ++ [sub]
  if fs.pexists srcDir && fs.isDirF srcDir then
    let destDir := destClaude ++ [sub]
    match fs.mkdirExistOk destDir with
    | .error e => .error e
    | .ok fs1 =>
      match exportClaudeItems srcDir destDir fs1 (fs1.childNames srcDir) 0 with
      | .error e => .error e
      | .ok (fs2, copied) =>
        if copied ≠ 0 then
          .ok (fs2, ["✓ Copied " ++ toString copied ++ " items from " ++ wsArg ++
            "/.claude/" ++ sub ++ "/"])
        else .ok (fs2, [])
  else .ok (fs, [])

/-- `cmd_export` up to (and excluding) the manifest re-parse for the local
`source` warning (lines 401-498).  `selfPath` is `Path(__file__).resolve()`. -/
def copyPhase (wsArg destArg : String) (selfPath : FPath) (fs : FS) :
    Except CmdResult St :=
  let wsPath := pathComponents wsArg
  if fs.pexists wsPath = false then
    .error ⟨fs, [Colors.RED ++ "Error: Workspace \x27" ++ wsArg ++ "\x27 not found" ++
      Colors.RESET], .exited 1⟩
  else if fs.pexists (wsPath ++ ["workspace.toml"]) = false then
    .error ⟨fs, [Colors.RED ++ "Error: workspace.toml not found in " ++ wsArg ++
      Colors.RESET], .exited 1⟩
  else
    let exportPath := resolvePath destArg
    match fs.mkdirExistOk exportPath with
    | .error e => .error ⟨fs, [], .raised e⟩
    | .ok fs1 =>
      let out1 := ["Exporting to: " ++ pathStr exportPath]
      -- copy workspace.py (dest_script.chmod(0o755): permissions unmodelled)
      match fs1.copy2 selfPath (exportPath ++ ["workspace.py"]) with
      | .error e => .error ⟨fs1, out1, .raised e⟩
      | .ok fs2 =>
        let st2 : St := ⟨fs2, out1 ++ ["✓ Copied workspace.py"]⟩
        let rootDir := selfPath.dropLast
        match exportRootDoc rootDir exportPath "CLAUDE.md" st2 with
        | .error e => .error ⟨st2.fs, st2.out, .raised e⟩
        | .ok st3 =>
          match exportRootDoc rootDir exportPath "README.md" st3 with
          | .error e => .error ⟨st3.fs, st3.out, .raised e⟩
          | .ok st4 =>
            let rootClaude := rootDir ++ [".claude"]
            let destClaude := exportPath ++ [".claude"]
            match st4.fs.mkdirExistOk destClaude with
            | .error e => .error ⟨st4.fs, st4.out, .raised e⟩
            | .ok fs5 =>
              match exportRootSub rootClaude destClaude "agents" fs5 with
              | .error e => .error ⟨fs5, st4.out, .raised e⟩
              | .ok (fs6, m6) =>
                match exportRootSub rootClaude destClaude "skills" fs6 with
                | .error e => .error ⟨fs6, st4.out ++ [m6], .raised e⟩
                | .ok (fs7, m7) =>
                  let st7 : St := ⟨fs7, st4.out ++ [m6, m7]⟩
                  let wsExport := exportPath ++ wsPath
                  match st7.fs.mkdirExistOk wsExport with
                  | .error e => .error ⟨st7.fs, st7.out, .raised e⟩
                  | .ok fs8 =>
                    match fs8.copy2 (wsPath ++ ["workspace.toml"])
                        (wsExport ++ ["workspace.toml"]) with
                    | .error e => .error ⟨fs8, st7.out, .raised e⟩
                    | .ok fs9 =>
                      let st9 : St := ⟨fs9, st7.out ++
                        ["✓ Copied " ++ wsArg ++ "/workspace.toml"]⟩
                      let r10 : Except String St :=
                        if st9.fs.pexists (wsPath ++ ["CLAUDE.md"]) then
                          match st9.fs.copy2 (wsPath ++ ["CLAUDE.md"])
                              (wsExport ++ ["CLAUDE.md"]) with
                          | .error e => .error e
                          | .ok fs' => .ok ⟨fs', st9.out ++ ["✓ Copied " ++ wsArg ++ "/CLAUDE.md"]⟩
                        else .ok st9
                      match r10 with
                      | .error e => .error ⟨st9.fs, st9.out, .raised e⟩
                      | .ok st10 =>
                        let wsPlans := wsPath ++ ["plans"]
                        let st11 : St :=
                          if st10.fs.pexists wsPlans && st10.fs.isDirF wsPlans then
                            let destPlans := wsExport ++ ["plans"]
                            let fsA := if st10.fs.pexists destPlans then
                              st10.fs.removeTree destPlans else st10.fs
                            ⟨fsA.copyTree wsPlans destPlans,
                              st10.out ++ ["✓ Copied " ++ wsArg ++ "/plans/"]⟩
                          else st10
                        let wsClaude := wsPath ++ [".claude"]
                        if st11.fs.pexists wsClaude then
                          let destWsClaude := wsExport ++ [".claude"]
                          match st11.fs.mkdirExistOk destWsClaude with
                          | .error e => .error ⟨st11.fs, st11.out, .raised e⟩
                          | .ok fsB =>
                            match exportWsSub wsClaude destWsClaude wsArg "agents" fsB with
                            | .error e => .error ⟨fsB, st11.out, .raised e⟩
                            | .ok (fsC, outC) =>
                              match exportWsSub wsClaude destWsClaude wsArg "skills" fsC with
                              | .error e => .error ⟨fsC, st11.out ++ outC, .raised e⟩
                              | .ok (fsD, outD) => .ok ⟨fsD, st11.out ++ outC ++ outD⟩
                        else .ok st11

/-- The `for entry in source_entries` print loop: the lines successfully
printed, and `some err` when `entry['path']` raises `KeyError`. -/
def warnLoop : List Repo → List String × Option String
  | [] => ([], none)
  | r :: rest =>
    match r.path with
    | none => ([], some "KeyError: \x27path\x27")
    | some p =>
      let t := warnLoop rest
      (("  - " ++ p ++ ": " ++ r.source.getD "") :: t.1, t.2)

/-- `[r for r in config.get("repos", []) if r.get("source")]`: the entries
with a truthy local `source`. -/
def sourceEntriesOf (cfg : Config) : List Repo :=
  (cfg.repos.getD []).filter (fun r => (r.source.getD "") != "")

/-- `cmd_export(args)`: the copy phase followed by the manifest re-parse
and the local-`source` warning (lines 500-512).  The re-parse yields the
same `cfg` (the manifest file is not modified by the copy phase). -/
def cmdExport (cfg : Config) (wsArg destArg : String) (selfPath : FPath) (fs : FS) :
    CmdResult :=
  match copyPhase wsArg destArg selfPath fs with
  | .error r => r
  | .ok st =>
    let exportPath := resolvePath destArg
    let sourceEntries := sourceEntriesOf cfg
    let finalOut := ["\n" ++ Colors.GREEN ++ "Export complete!" ++ Colors.RESET,
      "To set up: cd " ++ pathStr exportPath ++ " && ./workspace.py setup " ++ wsArg]
    if sourceEntries.isEmpty then ⟨st.fs, st.out ++ finalOut, .normal⟩
    else
      let hdr := ["\n" ++ Colors.YELLOW ++ "Note: This workspace has " ++
          toString sourceEntries.length ++ " local source entries." ++ Colors.RESET,
        "Recipients will need to update these paths in workspace.toml:"]
      match warnLoop sourceEntries with
      | (ls, none) => ⟨st.fs, st.out ++ hdr ++ ls ++ finalOut, .normal⟩
      | (ls, some e) => ⟨st.fs, st.out ++ hdr ++ ls, .raised e⟩

/-! ## Theorems about the Status Checker -/

/-- `check_repo`'s snapshot in closed form: a repo with a `.git` entry gets
each field from the corresponding git invocation — stripped stdout when the
invocation completed, `""` when it raised. -/
theorem checkRepo_eq (fs : FS) (env : GitEnv) (rp : FPath) (fetch : Bool)
    (hgit : fs.pexists (rp ++ [".git"]) = true) :
    checkRepo fs env rp fetch =
      { is_git_repo := true
        uncommitted := gitOut (env rp statusArgs)
        outgoing := gitOut (env rp logAheadArgs)
        incoming := gitOut (env rp logBehindArgs) } := by
  unfold checkRepo
  rw [hgit]
  cases h1 : env rp statusArgs <;>
    cases h2 : env rp logAheadArgs <;>
      cases h3 : env rp logBehindArgs <;>
        cases fetch <;>
          simp [runGit, gitOut, h1, h2, h3]

/-- C3: a repository under a checked workspace's repos/ directory with
uncommitted changes, zero outgoing and zero incoming commits is counted as
dirty (0 clean, 1 dirty) and its printed lines are exactly the repo header
and the uncommitted-changes section — no outgoing or incoming section. -/
theorem gitcheck_dirty_prints_only_uncommitted (fs : FS) (env : GitEnv)
    (rp : FPath) (fetch : Bool) (u : String)
    (hgit : fs.pexists (rp ++ [".git"]) = true)
    (hu : gitOut (env rp statusArgs) = u) (hne : u ≠ "")
    (ho : gitOut (env rp logAheadArgs) = "")
    (hi : gitOut (env rp logBehindArgs) = "") :
    repoReport fs env fetch rp =
      (0, 1, (Colors.CYAN ++ pathStr rp ++ Colors.RESET) ::
        "   Uncommitted changes:" ::
        (strSplitOn u "\n").map (fun l => Colors.YELLOW ++ "      " ++ l ++ Colors.RESET)) := by
  unfold repoReport
  rw [checkRepo_eq fs env rp fetch hgit, hu, ho, hi]
  simp [repoLines, sectionLines, hne]

def wFS3 : FS := ⟨[(["w", "repos", "r", ".git"], .dir)]⟩

def wEnv3 : GitEnv := fun _ as =>
  if as == statusArgs then .completed " M a.txt\n" else .completed ""

/-- C3 witness: a concrete dirty repository. -/
theorem gitcheck_dirty_prints_only_uncommitted_witness :
    repoReport wFS3 wEnv3 false ["w", "repos", "r"] =
      (0, 1, (Colors.CYAN ++ pathStr ["w", "repos", "r"] ++ Colors.RESET) ::
        "   Uncommitted changes:" ::
        (strSplitOn "M a.txt" "\n").map
          (fun l => Colors.YELLOW ++ "      " ++ l ++ Colors.RESET)) :=
  gitcheck_dirty_prints_only_uncommitted wFS3 wEnv3 ["w", "repos", "r"] false
    "M a.txt" (by decide) (by decide) (by decide) (by decide) (by decide)

/-- C9: a repository with no uncommitted changes, no outgoing and no
incoming commits is counted as clean and produces no printed lines at all. -/
theorem gitcheck_clean_prints_nothing (fs : FS) (env : GitEnv)
    (rp : FPath) (fetch : Bool)
    (hgit : fs.pexists (rp ++ [".git"]) = true)
    (hu : gitOut (env rp statusArgs) = "")
    (ho : gitOut (env rp logAheadArgs) = "")
    (hi : gitOut (env rp logBehindArgs) = "") :
    repoReport fs env fetch rp = (1, 0, []) := by
  unfold repoReport
  rw [checkRepo_eq fs env rp fetch hgit, hu, ho, hi]
  simp [repoLines]

def wEnv9 : GitEnv := fun _ _ => .completed "\n"

/-- C9 witness: a concrete clean repository. -/
theorem gitcheck_clean_prints_nothing_witness :
    repoReport wFS3 wEnv9 false ["w", "repos", "r"] = (1, 0, []) :=
  gitcheck_clean_prints_nothing wFS3 wEnv9 ["w", "repos", "r"] false
    (by decide) (by decide) (by decide) (by decide)

/-- C8: a raising git invocation (here: `git status`) leaves the
corresponding snapshot field as the empty string instead of aborting; the
other git queries of the same repository still determine their fields; the
(discarded) fetch call never changes the snapshot; and the workspace loop
always continues with the remaining repositories. -/
theorem gitcheck_git_failure_isolated (fs : FS) (env : GitEnv) (rp : FPath)
    (fetch : Bool) (err : String)
    (hgit : fs.pexists (rp ++ [".git"]) = true)
    (hfail : env rp statusArgs = .raised err) :
    (checkRepo fs env rp fetch).uncommitted = ""
    ∧ (checkRepo fs env rp fetch).outgoing = gitOut (env rp logAheadArgs)
    ∧ (checkRepo fs env rp fetch).incoming = gitOut (env rp logBehindArgs)
    ∧ checkRepo fs env rp true = checkRepo fs env rp false
    ∧ (∀ (reposPath : FPath) (n : String) (rest : List String),
        reposLoop fs env fetch reposPath (n :: rest) =
          ((repoContribution fs env fetch reposPath n).1 +
              (reposLoop fs env fetch reposPath rest).1,
            (repoContribution fs env fetch reposPath n).2.1 +
              (reposLoop fs env fetch reposPath rest).2.1,
            (repoContribution fs env fetch reposPath n).2.2 ++
              (reposLoop fs env fetch reposPath rest).2.2)) := by
  refine ⟨?_, ?_, ?_, ?_, ?_⟩
  · rw [checkRepo_eq fs env rp fetch hgit, hfail]; rfl
  · rw [checkRepo_eq fs env rp fetch hgit]
  · rw [checkRepo_eq fs env rp fetch hgit]
  · rw [checkRepo_eq fs env rp true hgit, checkRepo_eq fs env rp false hgit]
  · intro reposPath n rest
    rfl

def wEnv8 : GitEnv := fun _ as =>
  if as == statusArgs then .raised "OSError" else .completed "c1\n"

/-- C8 witness: a concrete repository whose `git status` invocation raises. -/
theorem gitcheck_git_failure_isolated_witness :
    (checkRepo wFS3 wEnv8 ["w", "repos", "r"] false).uncommitted = ""
    ∧ (checkRepo wFS3 wEnv8 ["w", "repos", "r"] false).outgoing =
        gitOut (wEnv8 ["w", "repos", "r"] logAheadArgs)
    ∧ (checkRepo wFS3 wEnv8 ["w", "repos", "r"] false).incoming =
        gitOut (wEnv8 ["w", "repos", "r"] logBehindArgs)
    ∧ checkRepo wFS3 wEnv8 ["w", "repos", "r"] true =
        checkRepo wFS3 wEnv8 ["w", "repos", "r"] false
    ∧ (∀ (reposPath : FPath) (n : String) (rest : List String),
        reposLoop wFS3 wEnv8 false reposPath (n :: rest) =
          ((repoContribution wFS3 wEnv8 false reposPath n).1 +
              (reposLoop wFS3 wEnv8 false reposPath rest).1,
            (repoContribution wFS3 wEnv8 false reposPath n).2.1 +
              (reposLoop wFS3 wEnv8 false reposPath rest).2.1,
            (repoContribution wFS3 wEnv8 false reposPath n).2.2 ++
              (reposLoop wFS3 wEnv8 false reposPath rest).2.2)) :=
  gitcheck_git_failure_isolated wFS3 wEnv8 ["w", "repos", "r"] false "OSError"
    (by decide) (by decide)

/-- C5: `gitcheck` exits with code 1 when an explicitly named workspace does
not exist, or exists without a repos/ directory; with no workspace named,
the current directory not a workspace, and no workspaces discoverable, it
prints "No workspaces found" and exits with code 0. -/
theorem gitcheck_exit_codes (fs : FS) (env : GitEnv) (fetch : Bool)
    (w : String) (hw : w ≠ "") :
    (fs.pexists (pathComponents w) = false →
        (cmdCheck fs env (some w) fetch).2 = 1)
    ∧ (fs.pexists (pathComponents w) = true →
        fs.isDirF (pathComponents w ++ ["repos"]) = false →
        (cmdCheck fs env (some w) fetch).2 = 1)
    ∧ (fs.isDirF ["repos"] = false → findWorkspaces fs = [] →
        (cmdCheck fs env none fetch).2 = 0
        ∧ "No workspaces found" ∈ (cmdCheck fs env none fetch).1) := by
  refine ⟨?_, ?_, ?_⟩
  · intro h1
    simp [cmdCheck, hw, h1]
  · intro h1 h2
    simp [cmdCheck, hw, h1, h2]
  · intro h1 h2
    simp [cmdCheck, h1, h2]

def wFS5 : FS := ⟨[(["w1"], .file "x")]⟩

/-- C5 witness: a concrete filesystem exercising all three branches. -/
theorem gitcheck_exit_codes_witness :
    ((cmdCheck wFS5 wEnv9 (some "nope") false).2 = 1)
    ∧ ((cmdCheck wFS5 wEnv9 (some "w1") false).2 = 1)
    ∧ ((cmdCheck wFS5 wEnv9 none false).2 = 0
        ∧ "No workspaces found" ∈ (cmdCheck wFS5 wEnv9 none false).1) := by
  have h := gitcheck_exit_codes wFS5 wEnv9 false "nope" (by decide)
  have h' := gitcheck_exit_codes wFS5 wEnv9 false "w1" (by decide)
  exact ⟨h.1 (by decide), (h'.2.1 (by decide) (by decide)),
    h.2.2 (by decide) (by decide)⟩

/-! ## Theorems about Setup -/

/-- C10: when the workspace directory and its manifest exist but the parsed
manifest has no top-level `repos` section, `setup` prints the error and
exits with code 1, the filesystem untouched. -/
theorem setup_missing_repos_section_fatal (clone : CloneEnv) (cfg : Config)
    (wsArg : String) (fs : FS)
    (h1 : fs.pexists (pathComponents wsArg) = true)
    (h2 : fs.pexists (pathComponents wsArg ++ ["workspace.toml"]) = true)
    (h3 : cfg.repos = none) :
    cmdSetup clone cfg wsArg fs =
      ⟨fs, ["Error: No \x27repos\x27 section found in workspace.toml"], .exited 1⟩ := by
  unfold cmdSetup setupPre
  simp [h1, h2, h3]

def wFS10 : FS := ⟨[(["demo"], .dir), (["demo", "workspace.toml"], .file "t")]⟩

/-- C10 witness: a concrete manifest without a `repos` section. -/
theorem setup_missing_repos_section_fatal_witness :
    cmdSetup (fun _ => none) { name := some "demo" } "demo" wFS10 =
      ⟨wFS10, ["Error: No \x27repos\x27 section found in workspace.toml"], .exited 1⟩ :=
  setup_missing_repos_section_fatal (fun _ => none) { name := some "demo" }
    "demo" wFS10 (by decide) (by decide) (by decide)

/-- C4: a repository entry with a `path` but neither `remote` nor `source`
is skipped — the loop step adds exactly one message, changes no filesystem
state, raises nothing, and continues with the remaining entries; the message
is the no-remote-or-source warning whenever the target path does not already
exist (and the already-exists notice otherwise). -/
theorem setup_entry_no_remote_no_source (clone : CloneEnv) (wsArg : String)
    (wsPath : FPath) (st : St) (r : Repo) (rest : List Repo) (s : String)
    (hp : r.path = some s) (hr : r.remote = none) (hs : r.source = none) :
    ∃ m, setupRepos clone wsArg wsPath st (r :: rest) =
        setupRepos clone wsArg wsPath ⟨st.fs, st.out ++ [m]⟩ rest
      ∧ ((st.fs.lookup (wsPath ++ pathComponents s)).isSome = false →
          m = "⊘ " ++ pathStr (pathComponents s) ++ " has no remote or source, skipping")
      ∧ ((st.fs.lookup (wsPath ++ pathComponents s)).isSome = true →
          m = "✓ " ++ pathStr (pathComponents s) ++ " already exists") := by
  obtain ⟨rp, rr, rs⟩ := r
  simp only at hp hr hs
  subst hp; subst hr; subst hs
  cases h : (st.fs.lookup (wsPath ++ pathComponents s)).isSome
  · exact ⟨"⊘ " ++ pathStr (pathComponents s) ++ " has no remote or source, skipping",
      by simp [setupRepos, h], fun _ => rfl, fun hc => Bool.noConfusion hc⟩
  · exact ⟨"✓ " ++ pathStr (pathComponents s) ++ " already exists",
      by simp [setupRepos, h], fun hc => Bool.noConfusion hc, fun _ => rfl⟩

/-- C4 witness: a concrete entry with neither remote nor source. -/
theorem setup_entry_no_remote_no_source_witness :
    ∃ m, setupRepos (fun _ => none) "demo" ["demo"] ⟨wFS10, []⟩
        [⟨some "a", none, none⟩] =
        setupRepos (fun _ => none) "demo" ["demo"] ⟨wFS10, [] ++ [m]⟩ []
      ∧ ((wFS10.lookup (["demo"] ++ pathComponents "a")).isSome = false →
          m = "⊘ " ++ pathStr (pathComponents "a") ++ " has no remote or source, skipping")
      ∧ ((wFS10.lookup (["demo"] ++ pathComponents "a")).isSome = true →
          m = "✓ " ++ pathStr (pathComponents "a") ++ " already exists") :=
  setup_entry_no_remote_no_source (fun _ => none) "demo" ["demo"] ⟨wFS10, []⟩
    ⟨some "a", none, none⟩ [] "a" rfl rfl rfl

/-! ## Theorems about the Note Linker -/

/-- The aibrief hard-link step only appends output: the printed lines of the
main branch survive, possibly followed by one hard-link notice. -/
theorem aibriefStep_out (hlOk : Bool) (w : String) (note : FPath) (st1 : St) :
    ∃ tail, (aibriefStep hlOk w note st1).out = st1.out ++ tail
      ∧ (tail = [] ∨ tail = ["  + aibrief: " ++ w ++ ".md (hard linked)"]) := by
  unfold aibriefStep
  by_cases h1 : st1.fs.isDirF aibriefDir
  · simp only [h1, if_true]
    by_cases h2 : (hlOk &&
        ((if st1.fs.pexists (aibriefDir ++ [w ++ ".md"]) then
            st1.fs.erase (aibriefDir ++ [w ++ ".md"]) else st1.fs).lookup note).isSome) = true
    · exact ⟨["  + aibrief: " ++ w ++ ".md (hard linked)"], by simp [h2], Or.inr rfl⟩
    · exact ⟨[], by simp [h2], Or.inl rfl⟩
  · exact ⟨[], by simp [h1], Or.inl rfl⟩

/-- The aibrief hard-link step touches no path other than its own
`{workspace}.md` link. -/
theorem aibriefStep_lookup_ne (hlOk : Bool) (w : String) (note : FPath) (st1 : St)
    (p : FPath) (hp : p ≠ aibriefDir ++ [w ++ ".md"]) :
    (aibriefStep hlOk w note st1).fs.lookup p = st1.fs.lookup p := by
  have herase : ∀ f : FS, (f.erase (aibriefDir ++ [w ++ ".md"])).lookup p = f.lookup p :=
    fun f => by rw [FS.lookup_erase]; simp [hp]
  have hset : ∀ (f : FS) (e : Entry),
      (f.set (aibriefDir ++ [w ++ ".md"]) e).lookup p = f.lookup p :=
    fun f e => FS.lookup_set_ne f _ e p hp
  simp only [aibriefStep]
  repeat' split
  all_goals simp only [hset]
  all_goals first | rfl | exact herase _

theorem already_ne_conflict (w v : String) :
    ("✓ " ++ w ++ " (already linked)") ≠
      ("✗ " ++ v ++ " (journal.md exists but is not a symlink)") := by
  intro h
  have h2 := congrArg String.data h
  simp only [String.data_append, List.append_assoc] at h2
  simp only [List.cons_append, List.nil_append] at h2
  injection h2 with h3 _
  exact absurd h3 (by decide)

theorem already_ne_create (w : String) (ps : String) :
    ("✓ " ++ w ++ " (already linked)") ≠ ("✓ " ++ w ++ " → " ++ ps) := by
  intro h
  have h2 := congrArg String.data h
  simp only [String.data_append, List.append_assoc] at h2
  have h3 := List.append_cancel_left h2
  have h4 := List.append_cancel_left h3
  simp only [List.cons_append, List.nil_append] at h4
  injection h4 with _ h5
  injection h5 with h6 _
  exact absurd h6 (by decide)

theorem already_ne_aibrief (w v : String) :
    ("✓ " ++ w ++ " (already linked)") ≠
      ("  + aibrief: " ++ v ++ ".md (hard linked)") := by
  intro h
  have h2 := congrArg String.data h
  simp only [String.data_append, List.append_assoc] at h2
  simp only [List.cons_append, List.nil_append] at h2
  injection h2 with h3 _
  exact absurd h3 (by decide)

theorem conflict_ne_aibrief (w v : String) :
    ("✗ " ++ w ++ " (journal.md exists but is not a symlink)") ≠
      ("  + aibrief: " ++ v ++ ".md (hard linked)") := by
  intro h
  have h2 := congrArg String.data h
  simp only [String.data_append, List.append_assoc] at h2
  simp only [List.cons_append, List.nil_append] at h2
  injection h2 with h3 _
  exact absurd h3 (by decide)

/-- The journal link path of a workspace is never the aibrief hard-link
path (their final components could only agree for `w = "journal"`, but the
aibrief directory's name differs from any workspace prefix ending in
`journal`). -/
theorem linkPath_ne_aibriefLink (wsDir : FPath) (w : String) :
    wsDir ++ pathComponents w ++ ["journal.md"] ≠ aibriefDir ++ [w ++ ".md"] := by
  intro h
  have hlast := congrArg List.getLast? h
  rw [List.getLast?_concat, List.getLast?_concat] at hlast
  have hmd : "journal.md" = w ++ ".md" := Option.some.inj hlast
  have hw : w = "journal" := by
    have h2 := congrArg String.data hmd
    rw [String.data_append] at h2
    have e1 : ("journal.md").data = "journal".data ++ (".md").data := rfl
    rw [e1] at h2
    exact (String.ext (List.append_cancel_right h2.symm))
  subst hw
  have hpc : pathComponents "journal" = ["journal"] := rfl
  rw [hpc] at h
  have hdl := congrArg List.dropLast h
  rw [List.dropLast_concat, List.dropLast_concat] at hdl
  have hl2 := congrArg List.getLast? hdl
  rw [List.getLast?_concat] at hl2
  rw [show aibriefDir.getLast? = some "work-journal-reviewer" from rfl] at hl2
  exact absurd (Option.some.inj hl2) (by decide)

/-- The claim's reading of "a journal link already exists and correctly
points at a file": the journal path holds a symbolic link whose target is an
existing regular file.  (This definition follows the claim's words, to be
compared with the code's behaviour.) -/
def journalCorrectlyLinked (fs : FS) (journal : FPath) : Bool :=
  match fs.lookup journal with
  | some (.symlink t) =>
    match fs.lookup t with
    | some (.file _) => true
    | _ => false
  | _ => false

def c2FS : FS := ⟨[
  (["..", "Notes", "notes", "n.md"], .file "workspace: demo\nbody"),
  (["demo"], .dir),
  (["demo", "journal.md"], .symlink ["gone"])]⟩

/-- C2 counterexample: with `demo/journal.md` a dangling symbolic link (no
file at its target `gone`), the Note Linker still reports "already linked",
so the report is not produced "exactly when a journal link exists and
correctly points at a file". -/
theorem link_already_linked_claim_counterexample :
    ¬ ((("✓ demo (already linked)") ∈
          (linkNote [] true ⟨c2FS, []⟩ ["..", "Notes", "notes", "n.md"]).out)
        ↔ journalCorrectlyLinked c2FS ["demo", "journal.md"] = true) := by
  decide

/-- C2 (amended): for a note whose workspace directory exists, the
"already linked" report is produced exactly when the journal path holds a
symbolic link — whether or not that link's target exists; and when a
non-symlink entry occupies the journal path, the conflict is reported and
the journal path is left unchanged. -/
theorem link_already_linked_iff_symlink (fs : FS) (wsDir : FPath) (hlOk : Bool)
    (note : FPath) (w : String)
    (hw : extractWorkspace (readFile fs note) = some w) (hne : w ≠ "")
    (hdir : fs.isDirF (wsDir ++ pathComponents w) = true) :
    (("✓ " ++ w ++ " (already linked)") ∈ (linkNote wsDir hlOk ⟨fs, []⟩ note).out
      ↔ fs.isSymlinkB (wsDir ++ pathComponents w ++ ["journal.md"]) = true)
    ∧ (fs.isSymlinkB (wsDir ++ pathComponents w ++ ["journal.md"]) = false →
        fs.pexists (wsDir ++ pathComponents w ++ ["journal.md"]) = true →
        ("✗ " ++ w ++ " (journal.md exists but is not a symlink)") ∈
            (linkNote wsDir hlOk ⟨fs, []⟩ note).out
          ∧ (linkNote wsDir hlOk ⟨fs, []⟩ note).fs.lookup
              (wsDir ++ pathComponents w ++ ["journal.md"]) =
            fs.lookup (wsDir ++ pathComponents w ++ ["journal.md"])) := by
  simp only [List.append_assoc]
  have hne2 : wsDir ++ (pathComponents w ++ ["journal.md"]) ≠ aibriefDir ++ [w ++ ".md"] := by
    rw [← List.append_assoc]
    exact linkPath_ne_aibriefLink wsDir w
  cases hsym : fs.isSymlinkB (wsDir ++ (pathComponents w ++ ["journal.md"])) with
  | true =>
    have hred : linkNote wsDir hlOk ⟨fs, []⟩ note =
        aibriefStep hlOk w note ⟨fs, ["✓ " ++ w ++ " (already linked)"]⟩ := by
      unfold linkNote
      rw [hw]
      simp [hne, hdir, hsym]
    refine ⟨⟨fun _ => rfl, fun _ => ?_⟩,
      fun h => Bool.noConfusion h⟩
    rw [hred]
    obtain ⟨tail, hout, _⟩ := aibriefStep_out hlOk w note
      ⟨fs, ["✓ " ++ w ++ " (already linked)"]⟩
    rw [hout]
    exact List.mem_append_left _ (by simp)
  | false =>
    cases hex : fs.pexists (wsDir ++ (pathComponents w ++ ["journal.md"])) with
    | true =>
      have hred : linkNote wsDir hlOk ⟨fs, []⟩ note =
          aibriefStep hlOk w note
            ⟨fs, ["✗ " ++ w ++ " (journal.md exists but is not a symlink)"]⟩ := by
        unfold linkNote
        rw [hw]
        simp [hne, hdir, hsym, hex]
      obtain ⟨tail, hout, htail⟩ := aibriefStep_out hlOk w note
        ⟨fs, ["✗ " ++ w ++ " (journal.md exists but is not a symlink)"]⟩
      constructor
      · constructor
        · intro hmem
          exfalso
          rw [hred, hout] at hmem
          rcases List.mem_append.mp hmem with hm | hm
          · simp only [List.mem_singleton] at hm
            exact already_ne_conflict w w hm
          · rcases htail with rfl | rfl
            · simp at hm
            · simp only [List.mem_singleton] at hm
              exact already_ne_aibrief w w hm
        · intro h
          exact Bool.noConfusion h
      · intro _ _
        constructor
        · rw [hred, hout]
          exact List.mem_append_left _ (by simp)
        · rw [hred]
          exact aibriefStep_lookup_ne hlOk w note _ _ hne2
    | false =>
      have hred : linkNote wsDir hlOk ⟨fs, []⟩ note =
          aibriefStep hlOk w note
            ⟨fs.set (wsDir ++ (pathComponents w ++ ["journal.md"])) (.symlink note),
              ["✓ " ++ w ++ " → " ++ pathStr note]⟩ := by
        unfold linkNote
        rw [hw]
        simp [hne, hdir, hsym, hex]
      obtain ⟨tail, hout, htail⟩ := aibriefStep_out hlOk w note
        ⟨fs.set (wsDir ++ (pathComponents w ++ ["journal.md"])) (.symlink note),
          ["✓ " ++ w ++ " → " ++ pathStr note]⟩
      constructor
      · constructor
        · intro hmem
          exfalso
          rw [hred, hout] at hmem
          rcases List.mem_append.mp hmem with hm | hm
          · simp only [List.mem_singleton] at hm
            exact already_ne_create w (pathStr note) hm
          · rcases htail with rfl | rfl
            · simp at hm
            · simp only [List.mem_singleton] at hm
              exact already_ne_aibrief w w hm
        · intro h
          exact Bool.noConfusion h
      · intro _ hc
        exact Bool.noConfusion hc

def c2FSb : FS := ⟨[
  (["..", "Notes", "notes", "n.md"], .file "workspace: demo\nbody"),
  (["demo"], .dir),
  (["demo", "journal.md"], .file "plain")]⟩

/-- C2 (amended) witness: a dangling symlink journal is reported "already
linked"; with a plain file at the journal path the conflict is reported and
nothing changes. -/
theorem link_already_linked_iff_symlink_witness :
    (("✓ " ++ "demo" ++ " (already linked)") ∈
        (linkNote [] true ⟨c2FS, []⟩ ["..", "Notes", "notes", "n.md"]).out
      ↔ c2FS.isSymlinkB ([] ++ pathComponents "demo" ++ ["journal.md"]) = true)
    ∧ (("✗ " ++ "demo" ++ " (journal.md exists but is not a symlink)") ∈
          (linkNote [] true ⟨c2FSb, []⟩ ["..", "Notes", "notes", "n.md"]).out
        ∧ (linkNote [] true ⟨c2FSb, []⟩ ["..", "Notes", "notes", "n.md"]).fs.lookup
            ([] ++ pathComponents "demo" ++ ["journal.md"]) =
          c2FSb.lookup ([] ++ pathComponents "demo" ++ ["journal.md"])) :=
  ⟨(link_already_linked_iff_symlink c2FS [] true ["..", "Notes", "notes", "n.md"]
      "demo" (by decide) (by decide) (by decide)).1,
    (link_already_linked_iff_symlink c2FSb [] true ["..", "Notes", "notes", "n.md"]
      "demo" (by decide) (by decide) (by decide)).2 (by decide) (by decide)⟩

theorem FS.isDirF_of_dir (fs : FS) (p : FPath) (h : fs.lookup p = some .dir) :
    fs.isDirF p = true := by
  show fs.isDir FS.linkFuel p = true
  rw [show FS.linkFuel = 31 + 1 from rfl]
  unfold FS.isDir
  rw [h]

/-- When the aibrief folder is not a directory, the hard-link step is the
identity. -/
theorem aibriefStep_id (hlOk : Bool) (w : String) (note : FPath) (st1 : St)
    (h : st1.fs.isDirF aibriefDir = false) :
    aibriefStep hlOk w note st1 = st1 := by
  simp [aibriefStep, h]

/-- What the hard-link step leaves at its own `{workspace}.md` path. -/
theorem aibriefStep_lookup_self (hlOk : Bool) (w : String) (note : FPath)
    (st1 : St) (hna : note ≠ aibriefDir ++ [w ++ ".md"]) :
    (aibriefStep hlOk w note st1).fs.lookup (aibriefDir ++ [w ++ ".md"]) =
      if st1.fs.isDirF aibriefDir = false then
        st1.fs.lookup (aibriefDir ++ [w ++ ".md"])
      else if hlOk && (st1.fs.lookup note).isSome then some (.hardlink note)
      else none := by
  cases hd : st1.fs.isDirF aibriefDir with
  | false =>
    rw [aibriefStep_id hlOk w note st1 hd]
    simp
  | true =>
    have hnoteEq : ∀ f : FS,
        (f.erase (aibriefDir ++ [w ++ ".md"])).lookup note = f.lookup note :=
      fun f => by rw [FS.lookup_erase]; simp [hna]
    cases hp : st1.fs.pexists (aibriefDir ++ [w ++ ".md"]) with
    | true =>
      cases hc : (hlOk && (st1.fs.lookup note).isSome) with
      | true => simp [aibriefStep, hd, hp, hnoteEq, hc, FS.lookup_set_self]
      | false => simp [aibriefStep, hd, hp, hnoteEq, hc, FS.lookup_erase]
    | false =>
      have hnone : st1.fs.lookup (aibriefDir ++ [w ++ ".md"]) = none := by
        cases hx : st1.fs.lookup (aibriefDir ++ [w ++ ".md"]) with
        | none => rfl
        | some e => unfold FS.pexists at hp; rw [hx] at hp; simp at hp
      cases hc : (hlOk && (st1.fs.lookup note).isSome) with
      | true => simp [aibriefStep, hd, hp, hc, FS.lookup_set_self]
      | false => simp [aibriefStep, hd, hp, hc, hnone]

/-- Reduction of a linker pass when the journal path already holds a
symbolic link: the "already linked" branch is taken. -/
theorem linkNote_already (g : FS) (wsDir : FPath) (hlOk : Bool) (note : FPath)
    (w c : String) (hrf : readFile g note = c) (hw : extractWorkspace c = some w)
    (hne : w ≠ "") (hdirF : g.isDirF (wsDir ++ pathComponents w) = true)
    (hsymF : g.isSymlinkB (wsDir ++ (pathComponents w ++ ["journal.md"])) = true) :
    linkNote wsDir hlOk ⟨g, []⟩ note =
      aibriefStep hlOk w note ⟨g, ["✓ " ++ w ++ " (already linked)"]⟩ := by
  unfold linkNote
  rw [show extractWorkspace (readFile g note) = some w from hrf ▸ hw]
  simp [hne, hdirF, hsymF]

/-- C6: for a note tagged with workspace `w` whose workspace folder exists
as a directory and has no `journal.md`, one Note Linker pass creates the
symbolic link `journal.md → note` and reports it; a second pass reports
"already linked" and leaves the filesystem pointwise unchanged. -/
theorem link_note_creates_then_already_linked
    (fs : FS) (wsDir : FPath) (hlOk : Bool) (note : FPath) (w c : String)
    (hnote : fs.lookup note = some (.file c))
    (hw : extractWorkspace c = some w) (hne : w ≠ "")
    (hdir : fs.lookup (wsDir ++ pathComponents w) = some .dir)
    (hj : fs.lookup (wsDir ++ pathComponents w ++ ["journal.md"]) = none)
    (hna : note ≠ aibriefDir ++ [w ++ ".md"])
    (hwd : wsDir ++ pathComponents w ≠ aibriefDir ++ [w ++ ".md"]) :
    (linkNote wsDir hlOk ⟨fs, []⟩ note).fs.lookup
        (wsDir ++ pathComponents w ++ ["journal.md"]) = some (.symlink note)
    ∧ ("✓ " ++ w ++ " → " ++ pathStr note) ∈ (linkNote wsDir hlOk ⟨fs, []⟩ note).out
    ∧ ("✓ " ++ w ++ " (already linked)") ∈
        (linkNote wsDir hlOk ⟨(linkNote wsDir hlOk ⟨fs, []⟩ note).fs, []⟩ note).out
    ∧ ∀ p, (linkNote wsDir hlOk ⟨(linkNote wsDir hlOk ⟨fs, []⟩ note).fs, []⟩ note).fs.lookup p
        = (linkNote wsDir hlOk ⟨fs, []⟩ note).fs.lookup p := by
  simp only [List.append_assoc]
  rw [List.append_assoc] at hj
  have hrf : readFile fs note = c := by simp [readFile, hnote]
  have hwD : wsDir ++ (pathComponents w ++ ["journal.md"]) ≠ aibriefDir ++ [w ++ ".md"] := by
    rw [← List.append_assoc]
    exact linkPath_ne_aibriefLink wsDir w
  have hnL : note ≠ wsDir ++ (pathComponents w ++ ["journal.md"]) := by
    intro h
    rw [h, hj] at hnote
    exact Option.noConfusion hnote
  have hwdL : wsDir ++ pathComponents w ≠ wsDir ++ (pathComponents w ++ ["journal.md"]) := by
    rw [← List.append_assoc]
    intro h
    have := congrArg List.length h
    simp at this
  have hdirF : fs.isDirF (wsDir ++ pathComponents w) = true := FS.isDirF_of_dir _ _ hdir
  have hsymF : fs.isSymlinkB (wsDir ++ (pathComponents w ++ ["journal.md"])) = false := by
    simp [FS.isSymlinkB, hj]
  have hexF : fs.pexists (wsDir ++ (pathComponents w ++ ["journal.md"])) = false := by
    simp [FS.pexists, hj]
  have hred1 : linkNote wsDir hlOk ⟨fs, []⟩ note =
      aibriefStep hlOk w note
        ⟨fs.set (wsDir ++ (pathComponents w ++ ["journal.md"])) (.symlink note),
          ["✓ " ++ w ++ " → " ++ pathStr note]⟩ := by
    unfold linkNote
    rw [show extractWorkspace (readFile fs note) = some w from hrf ▸ hw]
    simp [hne, hdirF, hsymF, hexF]
  have hfsL : (linkNote wsDir hlOk ⟨fs, []⟩ note).fs.lookup
      (wsDir ++ (pathComponents w ++ ["journal.md"])) = some (.symlink note) := by
    rw [hred1, aibriefStep_lookup_ne hlOk w note _ _ hwD]
    exact FS.lookup_set_self _ _ _
  have hgnote : (linkNote wsDir hlOk ⟨fs, []⟩ note).fs.lookup note = some (.file c) := by
    rw [hred1, aibriefStep_lookup_ne hlOk w note _ _ hna,
      FS.lookup_set_ne _ _ _ _ hnL, hnote]
  have hgdir : (linkNote wsDir hlOk ⟨fs, []⟩ note).fs.lookup
      (wsDir ++ pathComponents w) = some .dir := by
    rw [hred1, aibriefStep_lookup_ne hlOk w note _ _ hwd,
      FS.lookup_set_ne _ _ _ _ hwdL, hdir]
  have hrf2 : readFile (linkNote wsDir hlOk ⟨fs, []⟩ note).fs note = c := by
    simp [readFile, hgnote]
  have hdirF2 : (linkNote wsDir hlOk ⟨fs, []⟩ note).fs.isDirF
      (wsDir ++ pathComponents w) = true := FS.isDirF_of_dir _ _ hgdir
  have hsymF2 : (linkNote wsDir hlOk ⟨fs, []⟩ note).fs.isSymlinkB
      (wsDir ++ (pathComponents w ++ ["journal.md"])) = true := by
    simp [FS.isSymlinkB, hfsL]
  have hred2 := linkNote_already (linkNote wsDir hlOk ⟨fs, []⟩ note).fs wsDir hlOk
    note w c hrf2 hw hne hdirF2 hsymF2
  refine ⟨hfsL, ?_, ?_, ?_⟩
  · rw [hred1]
    obtain ⟨tail, hout, _⟩ := aibriefStep_out hlOk w note
      ⟨fs.set (wsDir ++ (pathComponents w ++ ["journal.md"])) (.symlink note),
        ["✓ " ++ w ++ " → " ++ pathStr note]⟩
    rw [hout]
    exact List.mem_append_left _ (by simp)
  · rw [hred2]
    obtain ⟨tail, hout, _⟩ := aibriefStep_out hlOk w note
      ⟨(linkNote wsDir hlOk ⟨fs, []⟩ note).fs, ["✓ " ++ w ++ " (already linked)"]⟩
    rw [hout]
    exact List.mem_append_left _ (by simp)
  · intro p
    by_cases hpa : p = aibriefDir ++ [w ++ ".md"]
    · subst hpa
      rw [hred2, aibriefStep_lookup_self hlOk w note _ hna]
      cases hd2 : (linkNote wsDir hlOk ⟨fs, []⟩ note).fs.isDirF aibriefDir with
      | false => simp
      | true =>
        simp only [Bool.true_eq_false, if_false, hgnote, Option.isSome_some,
          Bool.and_true]
        cases hd1 : (fs.set (wsDir ++ (pathComponents w ++ ["journal.md"]))
            (.symlink note)).isDirF aibriefDir with
        | false =>
          exfalso
          rw [hred1, aibriefStep_id hlOk w note _ hd1] at hd2
          rw [hd2] at hd1
          exact Bool.noConfusion hd1
        | true =>
          rw [hred1, aibriefStep_lookup_self hlOk w note _ hna]
          simp only [hd1, Bool.true_eq_false, if_false]
          rw [FS.lookup_set_ne _ _ _ _ hnL, hnote]
          simp
    · rw [hred2, aibriefStep_lookup_ne hlOk w note _ _ hpa]

def c6FS : FS := ⟨[
  (["..", "Notes", "notes", "n.md"], .file "workspace: demo\nbody"),
  (["demo"], .dir)]⟩

/-- C6 witness: a concrete note and workspace, with the hard-link side
enabled, run through the linker twice. -/
theorem link_note_creates_then_already_linked_witness :
    (linkNote [] true ⟨c6FS, []⟩ ["..", "Notes", "notes", "n.md"]).fs.lookup
        ([] ++ pathComponents "demo" ++ ["journal.md"]) =
      some (.symlink ["..", "Notes", "notes", "n.md"])
    ∧ ("✓ " ++ "demo" ++ " → " ++ pathStr ["..", "Notes", "notes", "n.md"]) ∈
        (linkNote [] true ⟨c6FS, []⟩ ["..", "Notes", "notes", "n.md"]).out
    ∧ ("✓ " ++ "demo" ++ " (already linked)") ∈
        (linkNote [] true
          ⟨(linkNote [] true ⟨c6FS, []⟩ ["..", "Notes", "notes", "n.md"]).fs, []⟩
          ["..", "Notes", "notes", "n.md"]).out
    ∧ ∀ p, (linkNote [] true
          ⟨(linkNote [] true ⟨c6FS, []⟩ ["..", "Notes", "notes", "n.md"]).fs, []⟩
          ["..", "Notes", "notes", "n.md"]).fs.lookup p
        = (linkNote [] true ⟨c6FS, []⟩ ["..", "Notes", "notes", "n.md"]).fs.lookup p :=
  link_note_creates_then_already_linked c6FS [] true
    ["..", "Notes", "notes", "n.md"] "demo" "workspace: demo\nbody"
    (by decide) (by decide) (by decide) (by decide) (by decide) (by decide) (by decide)

/-! ## Theorems about Export -/

/-- When every local-source entry has a `path` key, the warning loop prints
one line per entry and raises nothing. -/
theorem warnLoop_ok : ∀ (l : List Repo), (∀ r ∈ l, r.path.isSome = true) →
    (warnLoop l).2 = none
    ∧ ∀ r ∈ l, ∀ p, r.path = some p →
        ("  - " ++ p ++ ": " ++ r.source.getD "") ∈ (warnLoop l).1 := by
  intro l
  induction l with
  | nil => intro _; exact ⟨rfl, fun r hr => absurd hr (List.not_mem_nil r)⟩
  | cons r rest ih =>
    intro h
    have hr := h r (List.mem_cons_self r rest)
    obtain ⟨ihn, ihm⟩ := ih (fun x hx => h x (List.mem_cons_of_mem r hx))
    cases hrp : r.path with
    | none => rw [hrp] at hr; simp at hr
    | some p =>
      constructor
      · simp only [warnLoop, hrp]
        exact ihn
      · intro x hx q hq
        rcases List.mem_cons.mp hx with rfl | hx
        · rw [hrp] at hq
          cases hq
          simp [warnLoop, hrp]
        · simp only [warnLoop, hrp, List.mem_cons]
          exact Or.inr (ihm x hx q hq)

/-- C7: once the copy phase of an export has completed, a manifest with
local-source entries (each carrying a `path`) makes the export print the
warning note and one line naming each entry's path and source, and the
export still completes normally — the warning neither aborts a copy step
nor changes the outcome. -/
theorem export_source_entries_warned (cfg : Config) (wsArg destArg : String)
    (selfPath : FPath) (fs : FS) (st : St)
    (hcopy : copyPhase wsArg destArg selfPath fs = .ok st)
    (hpaths : ∀ r ∈ sourceEntriesOf cfg, r.path.isSome = true) :
    (cmdExport cfg wsArg destArg selfPath fs).outcome = .normal
    ∧ (∀ r ∈ sourceEntriesOf cfg, ∀ p, r.path = some p →
        ("  - " ++ p ++ ": " ++ r.source.getD "") ∈
          (cmdExport cfg wsArg destArg selfPath fs).out)
    ∧ (sourceEntriesOf cfg ≠ [] →
        ("\n" ++ Colors.YELLOW ++ "Note: This workspace has " ++
            toString (sourceEntriesOf cfg).length ++
            " local source entries." ++ Colors.RESET) ∈
          (cmdExport cfg wsArg destArg selfPath fs).out) := by
  obtain ⟨hnone, hmem⟩ := warnLoop_ok (sourceEntriesOf cfg) hpaths
  have hW : warnLoop (sourceEntriesOf cfg) = ((warnLoop (sourceEntriesOf cfg)).1, none) := by
    rw [← hnone]
  simp only [cmdExport, hcopy]
  cases hE : (sourceEntriesOf cfg).isEmpty with
  | true =>
    have hnil : sourceEntriesOf cfg = [] := List.isEmpty_iff.mp hE
    rw [if_pos rfl]
    refine ⟨rfl, ?_, ?_⟩
    · intro r hr p hp
      rw [hnil] at hr
      exact absurd hr (List.not_mem_nil r)
    · intro hne
      exact absurd hnil hne
  | false =>
    rw [hW, if_neg (show ¬(false = true) by decide)]
    refine ⟨rfl, ?_, ?_⟩
    · intro r hr p hp
      have hin := hmem r hr p hp
      simp [List.mem_append, hin]
    · intro _
      simp

def wFS7 : FS := ⟨[
  (["ws"], .dir), (["ws", "workspace.toml"], .file "tml"),
  (["workspace.py"], .file "script")]⟩

def wCfg7 : Config := { repos := some [{ path := some "repos/b", source := some "~/local/b" }] }

/-- C7 witness: a concrete export whose manifest has one local-source
entry. -/
theorem export_source_entries_warned_witness :
    (cmdExport wCfg7 "ws" "out" ["workspace.py"] wFS7).outcome = .normal
    ∧ ("  - " ++ "repos/b" ++ ": " ++
        (Repo.source ⟨some "repos/b", none, some "~/local/b"⟩).getD "") ∈
        (cmdExport wCfg7 "ws" "out" ["workspace.py"] wFS7).out := by
  have hok : ∃ s, copyPhase "ws" "out" ["workspace.py"] wFS7 = Except.ok s := ⟨_, rfl⟩
  obtain ⟨st, hc⟩ := hok
  have h := export_source_entries_warned wCfg7 "ws" "out" ["workspace.py"] wFS7 st hc
    (by decide)
  exact ⟨h.1, h.2.1 ⟨some "repos/b", none, some "~/local/b"⟩ (by decide) "repos/b" rfl⟩

/-! ## Setup never overwrites an existing entry

Every mutation `cmd_setup` performs is guarded by an existence check, so a
present entry survives a run unchanged.  These lemmas walk the embedding
step by step. -/

theorem FS.lookup_none_of_pexists_false (fs : FS) (p : FPath)
    (h : fs.pexists p = false) : fs.lookup p = none := by
  unfold FS.pexists at h
  cases hx : fs.lookup p with
  | none => rfl
  | some e => rw [hx] at h; simp at h

theorem FS.mkdirExistOk_pres (fs : FS) (d : FPath) (fs' : FS)
    (h : fs.mkdirExistOk d = .ok fs') (p : FPath) (e : Entry)
    (hp : fs.lookup p = some e) : fs'.lookup p = some e := by
  unfold FS.mkdirExistOk at h
  cases hd : fs.lookup d with
  | none =>
    rw [hd] at h
    cases h
    exact FS.lookup_mono_set fs d .dir hd p e hp
  | some x =>
    cases x with
    | dir => rw [hd] at h; cases h; exact hp
    | file c => rw [hd] at h; cases h
    | symlink t => rw [hd] at h; cases h
    | hardlink t => rw [hd] at h; cases h

theorem FS.mkdirStrict_pres (fs : FS) (d : FPath) (fs' : FS)
    (h : fs.mkdirStrict d = .ok fs') (p : FPath) (e : Entry)
    (hp : fs.lookup p = some e) : fs'.lookup p = some e := by
  unfold FS.mkdirStrict at h
  cases hd : fs.lookup d with
  | none =>
    rw [hd] at h
    cases h
    exact FS.lookup_mono_set fs d .dir hd p e hp
  | some x => rw [hd] at h; cases h

theorem FS.symlinkTo_pres (fs : FS) (d t : FPath) (fs' : FS)
    (h : fs.symlinkTo d t = .ok fs') (p : FPath) (e : Entry)
    (hp : fs.lookup p = some e) : fs'.lookup p = some e := by
  unfold FS.symlinkTo at h
  cases hd : fs.lookup d with
  | none =>
    rw [hd] at h
    cases h
    exact FS.lookup_mono_set fs d _ hd p e hp
  | some x => rw [hd] at h; cases h

theorem FS.writeText_pres (fs : FS) (d : FPath) (c : String) (fs' : FS)
    (hnone : fs.lookup d = none) (h : fs.writeText d c = .ok fs')
    (p : FPath) (e : Entry) (hp : fs.lookup p = some e) :
    fs'.lookup p = some e := by
  unfold FS.writeText at h
  rw [hnone] at h
  cases h
  exact FS.lookup_mono_set fs d _ hnone p e hp

/-- The filesystem carried by either outcome of a pipeline stage. -/
def exResFS : Except CmdResult St → FS
  | .ok st => st.fs
  | .error r => r.fs

theorem coreSymlinkStep_pres (link : FPath) (target : String) (parentSrc : FPath)
    (msg : String) (fs fs' : FS) (out' : List String)
    (h : coreSymlinkStep link target parentSrc msg fs = .ok (fs', out'))
    (p : FPath) (e : Entry) (hp : fs.lookup p = some e) : fs'.lookup p = some e := by
  unfold coreSymlinkStep at h
  split at h
  · cases hsl : fs.symlinkTo link (resolveRel link.dropLast target) with
    | error e2 => rw [hsl] at h; cases h
    | ok g => rw [hsl] at h; cases h; exact FS.symlinkTo_pres _ _ _ _ hsl p e hp
  · cases h; exact hp

theorem settingsStep_pres (sf : FPath) (fs fs' : FS) (out' : List String)
    (h : settingsStep sf fs = .ok (fs', out'))
    (p : FPath) (e : Entry) (hp : fs.lookup p = some e) : fs'.lookup p = some e := by
  unfold settingsStep at h
  split at h
  case isTrue hg =>
    cases hwt : fs.writeText sf starterSettingsJson with
    | error e2 => rw [hwt] at h; cases h
    | ok g =>
      rw [hwt] at h
      cases h
      exact FS.writeText_pres _ _ _ _ (FS.lookup_none_of_pexists_false _ _ hg) hwt p e hp
  case isFalse hg => cases h; exact hp

theorem setupClaudeSymlinks_pres (wsPath : FPath) (st : St) (p : FPath) (e : Entry)
    (hp : st.fs.lookup p = some e) :
    (exResFS (setupClaudeSymlinks wsPath st)).lookup p = some e := by
  unfold setupClaudeSymlinks
  cases hpar : st.fs.pexists [".claude"] with
  | false => simp [exResFS, hp]
  | true =>
    rw [if_neg (by decide : ¬(true = false))]
    cases hm1 : st.fs.mkdirExistOk (wsPath ++ [".claude"]) with
    | error e1 => simp [hm1, exResFS, hp]
    | ok fs1 =>
      have h1 := FS.mkdirExistOk_pres _ _ _ hm1 p e hp
      cases hm2 : fs1.mkdirExistOk (wsPath ++ [".claude", "agents"]) with
      | error e2 => simp [hm1, hm2, exResFS, h1]
      | ok fs2 =>
        have h2 := FS.mkdirExistOk_pres _ _ _ hm2 p e h1
        cases hm3 : fs2.mkdirExistOk (wsPath ++ [".claude", "skills"]) with
        | error e3 => simp [hm1, hm2, hm3, exResFS, h2]
        | ok fs3 =>
          have h3 := FS.mkdirExistOk_pres _ _ _ hm3 p e h2
          cases hc1 : coreSymlinkStep (wsPath ++ [".claude", "agents", "core"])
              "../../../.claude/agents" [".claude", "agents"]
              "  ✓ Linked agents/core -> ../../../.claude/agents" fs3 with
          | error e4 => simp [hm1, hm2, hm3, hc1, exResFS, h3]
          | ok pr4 =>
            obtain ⟨fs4, out4⟩ := pr4
            have h4 := coreSymlinkStep_pres _ _ _ _ _ _ _ hc1 p e h3
            cases hc2 : coreSymlinkStep (wsPath ++ [".claude", "skills", "core"])
                "../../../.claude/skills" [".claude", "skills"]
                "  ✓ Linked skills/core -> ../../../.claude/skills" fs4 with
            | error e5 => simp [hm1, hm2, hm3, hc1, hc2, exResFS, h4]
            | ok pr5 =>
              obtain ⟨fs5, out5⟩ := pr5
              have h5 := coreSymlinkStep_pres _ _ _ _ _ _ _ hc2 p e h4
              cases hc3 : settingsStep (wsPath ++ [".claude", "settings.local.json"]) fs5 with
              | error e6 => simp [hm1, hm2, hm3, hc1, hc2, hc3, exResFS, h5]
              | ok pr6 =>
                obtain ⟨fs6, out6⟩ := pr6
                have h6 := settingsStep_pres _ _ _ _ hc3 p e h5
                simp [hm1, hm2, hm3, hc1, hc2, hc3, exResFS, h6]

theorem plansStep_pres (pd : FPath) (fs fs' : FS) (out' : List String)
    (h : plansStep pd fs = .ok (fs', out'))
    (p : FPath) (e : Entry) (hp : fs.lookup p = some e) : fs'.lookup p = some e := by
  unfold plansStep at h
  split at h
  · cases hmk : fs.mkdirStrict pd with
    | error e2 => rw [hmk] at h; cases h
    | ok g => rw [hmk] at h; cases h; exact FS.mkdirStrict_pres _ _ _ hmk p e hp
  · cases h; exact hp

theorem claudeMdStep_pres (cfg : Config) (wsArg : String) (cm : FPath)
    (fs fs' : FS) (out' : List String)
    (h : claudeMdStep cfg wsArg cm fs = .ok (fs', out'))
    (p : FPath) (e : Entry) (hp : fs.lookup p = some e) : fs'.lookup p = some e := by
  unfold claudeMdStep at h
  split at h
  case isTrue hg =>
    cases hwt : fs.writeText cm (claudeMdContent cfg wsArg) with
    | error e2 => rw [hwt] at h; cases h
    | ok g =>
      rw [hwt] at h
      cases h
      exact FS.writeText_pres _ _ _ _ (FS.lookup_none_of_pexists_false _ _ hg) hwt p e hp
  case isFalse hg => cases h; exact hp

theorem setupPre_pres (cfg : Config) (wsArg : String) (fs : FS) (p : FPath) (e : Entry)
    (hp : fs.lookup p = some e) :
    (exResFS (setupPre cfg wsArg fs)).lookup p = some e := by
  unfold setupPre
  cases hws : fs.pexists (pathComponents wsArg) with
  | false => simp [exResFS, hp]
  | true =>
    rw [if_neg (by decide : ¬(true = false))]
    cases htm : fs.pexists (pathComponents wsArg ++ ["workspace.toml"]) with
    | false => simp [exResFS, hp]
    | true =>
      rw [if_neg (by decide : ¬(true = false))]
      cases hcr : cfg.repos with
      | none => simp [hcr, exResFS, hp]
      | some repos =>
        cases hmk : fs.mkdirExistOk (pathComponents wsArg ++ ["repos"]) with
        | error e1 => simp [hcr, hmk, exResFS, hp]
        | ok fs1 =>
          have h1 := FS.mkdirExistOk_pres _ _ _ hmk p e hp
          cases hpl : plansStep (pathComponents wsArg ++ ["plans"]) fs1 with
          | error e2 => simp [hcr, hmk, hpl, exResFS, h1]
          | ok pr2 =>
            obtain ⟨fs2, out2⟩ := pr2
            have h2 := plansStep_pres _ _ _ _ hpl p e h1
            cases hcm : claudeMdStep cfg wsArg (pathComponents wsArg ++ ["CLAUDE.md"]) fs2 with
            | error e3 => simp [hcr, hmk, hpl, hcm, exResFS, h2]
            | ok pr3 =>
              obtain ⟨fs3, out3⟩ := pr3
              have h3 := claudeMdStep_pres _ _ _ _ _ _ hcm p e h2
              have hscs := setupClaudeSymlinks_pres (pathComponents wsArg)
                ⟨fs3, out2 ++ (out3 ++ ["\nSetting up .claude symlinks..."])⟩ p e h3
              cases hsc : setupClaudeSymlinks (pathComponents wsArg)
                  ⟨fs3, out2 ++ (out3 ++ ["\nSetting up .claude symlinks..."])⟩ with
              | error r =>
                rw [hsc] at hscs
                simp only [exResFS] at hscs
                simp [hcr, hmk, hpl, hcm, hsc, exResFS, hscs]
              | ok st4 =>
                rw [hsc] at hscs
                simp only [exResFS] at hscs
                simp [hcr, hmk, hpl, hcm, hsc, exResFS, hscs]

theorem setupRepos_pres (clone : CloneEnv) (wsArg : String) (wsPath : FPath) :
    ∀ (rs : List Repo) (st : St) (p : FPath) (e : Entry),
      st.fs.lookup p = some e →
      (setupRepos clone wsArg wsPath st rs).fs.lookup p = some e := by
  intro rs
  induction rs with
  | nil => intro st p e hp; exact hp
  | cons r rest ih =>
    intro st p e hp
    cases hrp : r.path with
    | none => simp [setupRepos, hrp, hp]
    | some s =>
      cases ht : (st.fs.lookup (wsPath ++ pathComponents s)).isSome with
      | true =>
        have := ih ⟨st.fs, st.out ++ ["✓ " ++ pathStr (pathComponents s) ++ " already exists"]⟩ p e hp
        simpa [setupRepos, hrp, ht] using this
      | false =>
        by_cases hs : r.source.getD "" = ""
        · by_cases hr : r.remote.getD "" = ""
          · have := ih ⟨st.fs, st.out ++
              ["⊘ " ++ pathStr (pathComponents s) ++ " has no remote or source, skipping"]⟩ p e hp
            simpa [setupRepos, hrp, ht, hs, hr] using this
          · cases hcl : clone (r.remote.getD "") with
            | none =>
              have hnone : st.fs.lookup (wsPath ++ pathComponents s) = none := by
                cases hx : st.fs.lookup (wsPath ++ pathComponents s) with
                | none => rfl
                | some x => rw [hx] at ht; simp at ht
              have hp2 : (st.fs.set (wsPath ++ pathComponents s) .dir).lookup p = some e :=
                FS.lookup_mono_set _ _ _ hnone p e hp
              have := ih ⟨st.fs.set (wsPath ++ pathComponents s) .dir, st.out ++
                ["✓ Cloned " ++ r.remote.getD "" ++ " -> " ++ pathStr (pathComponents s)]⟩ p e hp2
              simpa [setupRepos, hrp, ht, hs, hr, hcl] using this
            | some err =>
              have := ih ⟨st.fs, st.out ++
                ["✗ Failed to clone " ++ r.remote.getD "" ++ ": " ++ err]⟩ p e hp
              simpa [setupRepos, hrp, ht, hs, hr, hcl] using this
        · cases hsp : st.fs.pexists (resolvePath (r.source.getD "")) with
          | false =>
            have := ih ⟨st.fs, st.out ++
              ["✗ " ++ pathStr (pathComponents s) ++ ": source " ++ r.source.getD "" ++
                " doesn\x27t exist"]⟩ p e hp
            simpa [setupRepos, hrp, ht, hs, hsp] using this
          | true =>
            cases hsl : st.fs.symlinkTo (wsPath ++ pathComponents s)
                (resolvePath (r.source.getD "")) with
            | error e2 => simp [setupRepos, hrp, ht, hs, hsp, hsl, hp]
            | ok fs' =>
              have hp2 := FS.symlinkTo_pres _ _ _ _ hsl p e hp
              have := ih ⟨fs', st.out ++
                ["✓ Linked " ++ pathStr (pathComponents s) ++ " -> " ++ r.source.getD ""]⟩ p e hp2
              simpa [setupRepos, hrp, ht, hs, hsp, hsl] using this

/-- Any run of `cmd_setup` preserves every entry present when it started:
setup never overwrites existing filesystem state. -/
theorem cmdSetup_pres (clone : CloneEnv) (cfg : Config) (wsArg : String) (fs : FS)
    (p : FPath) (e : Entry) (hp : fs.lookup p = some e) :
    (cmdSetup clone cfg wsArg fs).fs.lookup p = some e := by
  unfold cmdSetup
  have hpre := setupPre_pres cfg wsArg fs p e hp
  cases hx : setupPre cfg wsArg fs with
  | error r =>
    rw [hx] at hpre
    simp only [exResFS] at hpre
    simpa [hx] using hpre
  | ok st =>
    rw [hx] at hpre
    simp only [exResFS] at hpre
    have := setupRepos_pres clone wsArg (pathComponents wsArg) (cfg.repos.getD []) st p e hpre
    simpa [hx] using this

theorem setupClaudeSymlinks_error_outcome (wsPath : FPath) (st : St) (r : CmdResult)
    (h : setupClaudeSymlinks wsPath st = .error r) : ¬ r.outcome = .normal := by
  unfold setupClaudeSymlinks at h
  split at h
  · exact Except.noConfusion h
  · split at h
    · injection h with h2; subst h2; simp
    · split at h
      · injection h with h2; subst h2; simp
      · split at h
        · injection h with h2; subst h2; simp
        · split at h
          · injection h with h2; subst h2; simp
          · split at h
            · injection h with h2; subst h2; simp
            · split at h
              · injection h with h2; subst h2; simp
              · exact Except.noConfusion h

theorem setupPre_error_outcome (cfg : Config) (wsArg : String) (fs : FS) (r : CmdResult)
    (h : setupPre cfg wsArg fs = .error r) : ¬ r.outcome = .normal := by
  unfold setupPre at h
  split at h
  · injection h with h2; subst h2; simp
  · split at h
    · injection h with h2; subst h2; simp
    · split at h
      · injection h with h2; subst h2; simp
      · split at h
        · injection h with h2; subst h2; simp
        · split at h
          · injection h with h2; subst h2; simp
          · split at h
            · injection h with h2; subst h2; simp
            · split at h
              · rename_i r2 heq
                injection h with h2
                subst h2
                exact setupClaudeSymlinks_error_outcome _ _ _ heq
              · exact Except.noConfusion h

theorem setupRepos_out_mono (clone : CloneEnv) (wsArg : String) (wsPath : FPath) :
    ∀ (rs : List Repo) (st : St),
      ∃ tail, (setupRepos clone wsArg wsPath st rs).out = st.out ++ tail := by
  intro rs
  induction rs with
  | nil =>
    intro st
    exact ⟨["\nWorkspace \x27" ++ wsArg ++ "\x27 is ready!"], rfl⟩
  | cons r rest ih =>
    intro st
    cases hrp : r.path with
    | none => exact ⟨[], by simp [setupRepos, hrp]⟩
    | some s =>
      cases ht : (st.fs.lookup (wsPath ++ pathComponents s)).isSome with
      | true =>
        obtain ⟨t, htl⟩ := ih ⟨st.fs,
          st.out ++ ["✓ " ++ pathStr (pathComponents s) ++ " already exists"]⟩
        exact ⟨["✓ " ++ pathStr (pathComponents s) ++ " already exists"] ++ t,
          by simp [setupRepos, hrp, ht, htl]⟩
      | false =>
        by_cases hs : r.source.getD "" = ""
        · by_cases hr : r.remote.getD "" = ""
          · obtain ⟨t, htl⟩ := ih ⟨st.fs, st.out ++
              ["⊘ " ++ pathStr (pathComponents s) ++ " has no remote or source, skipping"]⟩
            exact ⟨["⊘ " ++ pathStr (pathComponents s) ++ " has no remote or source, skipping"] ++ t,
              by simp [setupRepos, hrp, ht, hs, hr, htl]⟩
          · cases hcl : clone (r.remote.getD "") with
            | none =>
              obtain ⟨t, htl⟩ := ih ⟨st.fs.set (wsPath ++ pathComponents s) .dir, st.out ++
                ["✓ Cloned " ++ r.remote.getD "" ++ " -> " ++ pathStr (pathComponents s)]⟩
              exact ⟨["✓ Cloned " ++ r.remote.getD "" ++ " -> " ++ pathStr (pathComponents s)] ++ t,
                by simp [setupRepos, hrp, ht, hs, hr, hcl, htl]⟩
            | some err =>
              obtain ⟨t, htl⟩ := ih ⟨st.fs, st.out ++
                ["✗ Failed to clone " ++ r.remote.getD "" ++ ": " ++ err]⟩
              exact ⟨["✗ Failed to clone " ++ r.remote.getD "" ++ ": " ++ err] ++ t,
                by simp [setupRepos, hrp, ht, hs, hr, hcl, htl]⟩
        · cases hsp : st.fs.pexists (resolvePath (r.source.getD "")) with
          | false =>
            obtain ⟨t, htl⟩ := ih ⟨st.fs, st.out ++
              ["✗ " ++ pathStr (pathComponents s) ++ ": source " ++ r.source.getD "" ++
                " doesn\x27t exist"]⟩
            exact ⟨["✗ " ++ pathStr (pathComponents s) ++ ": source " ++ r.source.getD "" ++
                " doesn\x27t exist"] ++ t,
              by simp [setupRepos, hrp, ht, hs, hsp, htl]⟩
          | true =>
            cases hsl : st.fs.symlinkTo (wsPath ++ pathComponents s)
                (resolvePath (r.source.getD "")) with
            | error e2 => exact ⟨[], by simp [setupRepos, hrp, ht, hs, hsp, hsl]⟩
            | ok fs' =>
              obtain ⟨t, htl⟩ := ih ⟨fs', st.out ++
                ["✓ Linked " ++ pathStr (pathComponents s) ++ " -> " ++ r.source.getD ""]⟩
              exact ⟨["✓ Linked " ++ pathStr (pathComponents s) ++ " -> " ++ r.source.getD ""] ++ t,
                by simp [setupRepos, hrp, ht, hs, hsp, hsl, htl]⟩

theorem setupRepos_notice (clone : CloneEnv) (wsArg : String) (wsPath : FPath) :
    ∀ (rs : List Repo) (st : St) (r : Repo) (s : String),
      r ∈ rs → r.path = some s →
      (st.fs.lookup (wsPath ++ pathComponents s)).isSome = true →
      (setupRepos clone wsArg wsPath st rs).outcome = .normal →
      ("✓ " ++ pathStr (pathComponents s) ++ " already exists") ∈
        (setupRepos clone wsArg wsPath st rs).out := by
  intro rs
  induction rs with
  | nil => intro st r s hmem; exact absurd hmem (List.not_mem_nil r)
  | cons r0 rest ih =>
    intro st r s hmem hpath hsome hnorm
    rcases List.mem_cons.mp hmem with rfl | hmem2
    · obtain ⟨t, htl⟩ := setupRepos_out_mono clone wsArg wsPath rest
        ⟨st.fs, st.out ++ ["✓ " ++ pathStr (pathComponents s) ++ " already exists"]⟩
      simp [setupRepos, hpath, hsome, htl]
    · cases hrp : r0.path with
      | none => simp [setupRepos, hrp] at hnorm
      | some s0 =>
        cases ht : (st.fs.lookup (wsPath ++ pathComponents s0)).isSome with
        | true =>
          rw [show setupRepos clone wsArg wsPath st (r0 :: rest) =
            setupRepos clone wsArg wsPath ⟨st.fs, st.out ++
              ["✓ " ++ pathStr (pathComponents s0) ++ " already exists"]⟩ rest from
            by simp [setupRepos, hrp, ht]] at hnorm ⊢
          exact ih _ r s hmem2 hpath hsome hnorm
        | false =>
          by_cases hs : r0.source.getD "" = ""
          · by_cases hr : r0.remote.getD "" = ""
            · rw [show setupRepos clone wsArg wsPath st (r0 :: rest) =
                setupRepos clone wsArg wsPath ⟨st.fs, st.out ++
                  ["⊘ " ++ pathStr (pathComponents s0) ++ " has no remote or source, skipping"]⟩
                  rest from by simp [setupRepos, hrp, ht, hs, hr]] at hnorm ⊢
              exact ih _ r s hmem2 hpath hsome hnorm
            · cases hcl : clone (r0.remote.getD "") with
              | none =>
                have hnone : st.fs.lookup (wsPath ++ pathComponents s0) = none := by
                  cases hx : st.fs.lookup (wsPath ++ pathComponents s0) with
                  | none => rfl
                  | some x => rw [hx] at ht; simp at ht
                obtain ⟨ex, hex⟩ : ∃ ex, st.fs.lookup (wsPath ++ pathComponents s) = some ex := by
                  cases hx : st.fs.lookup (wsPath ++ pathComponents s) with
                  | none => rw [hx] at hsome; simp at hsome
                  | some x => exact ⟨x, rfl⟩
                have hsome2 : ((st.fs.set (wsPath ++ pathComponents s0) .dir).lookup
                    (wsPath ++ pathComponents s)).isSome = true := by
                  rw [FS.lookup_mono_set _ _ _ hnone _ _ hex]
                  rfl
                rw [show setupRepos clone wsArg wsPath st (r0 :: rest) =
                  setupRepos clone wsArg wsPath ⟨st.fs.set (wsPath ++ pathComponents s0) .dir,
                    st.out ++ ["✓ Cloned " ++ r0.remote.getD "" ++ " -> " ++
                      pathStr (pathComponents s0)]⟩ rest from
                  by simp [setupRepos, hrp, ht, hs, hr, hcl]] at hnorm ⊢
                exact ih _ r s hmem2 hpath hsome2 hnorm
              | some err =>
                rw [show setupRepos clone wsArg wsPath st (r0 :: rest) =
                  setupRepos clone wsArg wsPath ⟨st.fs, st.out ++
                    ["✗ Failed to clone " ++ r0.remote.getD "" ++ ": " ++ err]⟩ rest from
                  by simp [setupRepos, hrp, ht, hs, hr, hcl]] at hnorm ⊢
                exact ih _ r s hmem2 hpath hsome hnorm
          · cases hsp : st.fs.pexists (resolvePath (r0.source.getD "")) with
            | false =>
              rw [show setupRepos clone wsArg wsPath st (r0 :: rest) =
                setupRepos clone wsArg wsPath ⟨st.fs, st.out ++
                  ["✗ " ++ pathStr (pathComponents s0) ++ ": source " ++ r0.source.getD "" ++
                    " doesn\x27t exist"]⟩ rest from
                by simp [setupRepos, hrp, ht, hs, hsp]] at hnorm ⊢
              exact ih _ r s hmem2 hpath hsome hnorm
            | true =>
              cases hsl : st.fs.symlinkTo (wsPath ++ pathComponents s0)
                  (resolvePath (r0.source.getD "")) with
              | error e2 => simp [setupRepos, hrp, ht, hs, hsp, hsl] at hnorm
              | ok fs' =>
                obtain ⟨ex, hex⟩ : ∃ ex, st.fs.lookup (wsPath ++ pathComponents s) = some ex := by
                  cases hx : st.fs.lookup (wsPath ++ pathComponents s) with
                  | none => rw [hx] at hsome; simp at hsome
                  | some x => exact ⟨x, rfl⟩
                have hsome2 : (fs'.lookup (wsPath ++ pathComponents s)).isSome = true := by
                  rw [FS.symlinkTo_pres _ _ _ _ hsl _ _ hex]
                  rfl
                rw [show setupRepos clone wsArg wsPath st (r0 :: rest) =
                  setupRepos clone wsArg wsPath ⟨fs', st.out ++
                    ["✓ Linked " ++ pathStr (pathComponents s0) ++ " -> " ++
                      r0.source.getD ""]⟩ rest from
                  by simp [setupRepos, hrp, ht, hs, hsp, hsl]] at hnorm ⊢
                exact ih _ r s hmem2 hpath hsome2 hnorm

/-- A normally-completing run of `cmd_setup` prints the already-exists
notice for every manifest entry whose target path existed when the run
started. -/
theorem cmdSetup_notices (clone : CloneEnv) (cfg : Config) (wsArg : String)
    (g : FS) (r : Repo) (s : String)
    (hnorm : (cmdSetup clone cfg wsArg g).outcome = .normal)
    (hmem : r ∈ cfg.repos.getD []) (hpath : r.path = some s)
    (hsome : (g.lookup (pathComponents wsArg ++ pathComponents s)).isSome = true) :
    ("✓ " ++ pathStr (pathComponents s) ++ " already exists") ∈
      (cmdSetup clone cfg wsArg g).out := by
  unfold cmdSetup at hnorm ⊢
  cases hx : setupPre cfg wsArg g with
  | error r2 =>
    simp only [hx] at hnorm
    exact absurd hnorm (setupPre_error_outcome cfg wsArg g r2 hx)
  | ok st =>
    simp only [hx] at hnorm ⊢
    obtain ⟨ex, hex⟩ : ∃ ex, g.lookup (pathComponents wsArg ++ pathComponents s) = some ex := by
      cases hz : g.lookup (pathComponents wsArg ++ pathComponents s) with
      | none => rw [hz] at hsome; simp at hsome
      | some x => exact ⟨x, rfl⟩
    have hst := setupPre_pres cfg wsArg g (pathComponents wsArg ++ pathComponents s) ex hex
    rw [hx] at hst
    simp only [exResFS] at hst
    exact setupRepos_notice clone wsArg (pathComponents wsArg) (cfg.repos.getD []) st r s
      hmem hpath (by rw [hst]; rfl) hnorm

def c1FS : FS := ⟨[(["demo"], .dir), (["demo", "workspace.toml"], .file "t"), (["ext"], .dir)]⟩

def c1Cfg : Config := { repos := some [⟨some "p1", none, some "demo/p2"⟩,
  ⟨some "p2", none, some "ext"⟩] }

def c1Clone : CloneEnv := fun _ => some "err"

/-- C1 counterexample: both runs complete normally, yet the filesystem
after the second run differs from the filesystem after the first — entry
`p1`'s source `demo/p2` is only created by the later entry `p2`, so run one
skips `p1` while run two creates the symlink. -/
theorem setup_rerun_claim_counterexample :
    (cmdSetup c1Clone c1Cfg "demo" c1FS).outcome = .normal
    ∧ (cmdSetup c1Clone c1Cfg "demo" (cmdSetup c1Clone c1Cfg "demo" c1FS).fs).outcome = .normal
    ∧ (cmdSetup c1Clone c1Cfg "demo" c1FS).fs.lookup ["demo", "p1"] = none
    ∧ (cmdSetup c1Clone c1Cfg "demo" (cmdSetup c1Clone c1Cfg "demo" c1FS).fs).fs.lookup
        ["demo", "p1"] = some (.symlink ["demo", "p2"])
    ∧ ¬ (cmdSetup c1Clone c1Cfg "demo" (cmdSetup c1Clone c1Cfg "demo" c1FS).fs).fs =
        (cmdSetup c1Clone c1Cfg "demo" c1FS).fs := by
  decide

/-- C1 (amended): re-running Setup never overwrites anything — every entry
present after the first run persists unchanged through the second run — and
whenever the second run completes normally it skips, with the already-exists
notice, every repository entry whose target path existed after the first
run.  (The second run's state may differ from the first only by creating
entries at paths that were still absent, e.g. retrying an entry whose
source appeared later.) -/
theorem setup_rerun_no_overwrite (clone : CloneEnv) (cfg : Config) (wsArg : String)
    (fs : FS) :
    (∀ p e, (cmdSetup clone cfg wsArg fs).fs.lookup p = some e →
        (cmdSetup clone cfg wsArg (cmdSetup clone cfg wsArg fs).fs).fs.lookup p = some e)
    ∧ ((cmdSetup clone cfg wsArg (cmdSetup clone cfg wsArg fs).fs).outcome = .normal →
        ∀ r ∈ cfg.repos.getD [], ∀ s, r.path = some s →
          ((cmdSetup clone cfg wsArg fs).fs.lookup
              (pathComponents wsArg ++ pathComponents s)).isSome = true →
          ("✓ " ++ pathStr (pathComponents s) ++ " already exists") ∈
            (cmdSetup clone cfg wsArg (cmdSetup clone cfg wsArg fs).fs).out) :=
  ⟨fun p e hp => cmdSetup_pres clone cfg wsArg _ p e hp,
    fun hnorm r hr s hps hsome =>
      cmdSetup_notices clone cfg wsArg _ r s hnorm hr hps hsome⟩

def w1FS : FS := ⟨[(["demo"], .dir), (["demo", "workspace.toml"], .file "t")]⟩

def w1Cfg : Config := { repos := some [⟨some "a", some "https://x/a.git", none⟩] }

def w1Clone : CloneEnv := fun _ => none

/-- C1 (amended) witness: a cloned entry survives the second run unchanged
and is skipped with the already-exists notice. -/
theorem setup_rerun_no_overwrite_witness :
    (cmdSetup w1Clone w1Cfg "demo" (cmdSetup w1Clone w1Cfg "demo" w1FS).fs).fs.lookup
        ["demo", "a"] = some .dir
    ∧ ("✓ " ++ pathStr (pathComponents "a") ++ " already exists") ∈
        (cmdSetup w1Clone w1Cfg "demo" (cmdSetup w1Clone w1Cfg "demo" w1FS).fs).out := by
  have h := setup_rerun_no_overwrite w1Clone w1Cfg "demo" w1FS
  exact ⟨h.1 ["demo", "a"] .dir (by decide),
    h.2 (by decide) ⟨some "a", some "https://x/a.git", none⟩ (by decide) "a" rfl (by decide)⟩

end Workspaces
